import Mathlib

/-!
Verification of the Virtual Eye Emulator core (src/Virtual_Eye_Emulator_2.py).

The Python class EyeTracker is shallowly embedded: its mutable fields become
explicit state records, its methods become pure state-transition functions,
floating point values become exact rationals (and reals where a square root
occurs), and the wall clock becomes an explicit rational timestamp argument.
-/

set_option maxHeartbeats 1000000

namespace VirtualEye

/-- Threshold used only for cumulative blink counting
(EyeTracker.__init__, src/Virtual_Eye_Emulator_2.py line 47). -/
def blink_threshold : ℚ := 20/100

/-- Stricter threshold used for wink and both-closed classification
(EyeTracker.__init__, line 48). -/
def wink_threshold : ℚ := 18/100

/-- Debounce length for wink detection and blink counting (line 49). -/
def consecutive_frames : ℕ := 2

/-- The mutable classification fields of EyeTracker relevant to eye-state
and blink bookkeeping (EyeTracker.__init__, lines 50-60). -/
structure TrackerState where
  left_blink_counter : ℕ
  right_blink_counter : ℕ
  left_blink_total : ℕ
  right_blink_total : ℕ
  left_wink_counter : ℕ
  right_wink_counter : ℕ
  both_eyes_closed : Bool
  left_winking : Bool
  right_winking : Bool
deriving Repr, DecidableEq

/-- Initial tracker state (EyeTracker.__init__): all counters zero, all
flags false. -/
def initState : TrackerState :=
  ⟨0, 0, 0, 0, 0, 0, false, false, false⟩

/-- Embeds EyeTracker.detect_eye_state (lines 202-245).  The Python method
mutates the wink counters and flags and returns a state string; here the
updated state is returned together with that string.  Control flow is kept
exactly: the elif chain with its trailing else, the early returns, and the
fall-through into the right-wink block and the both-open block. -/
def detect_eye_state (s : TrackerState) (left_ear right_ear : ℚ) :
    TrackerState × String :=
  if left_ear < wink_threshold ∧ right_ear < wink_threshold then
    -- both eyes closed: early return, wink counters untouched
    ({ s with both_eyes_closed := true, left_winking := false,
              right_winking := false }, "AMBOS_CERRADOS")
  else if left_ear < wink_threshold ∧ ¬ right_ear < wink_threshold then
    -- left wink branch of the elif chain
    let s1 := { s with left_wink_counter := s.left_wink_counter + 1 }
    if consecutive_frames ≤ s1.left_wink_counter then
      ({ s1 with left_winking := true, right_winking := false,
                 both_eyes_closed := false }, "GUINANDO_IZQUIERDO")
    else
      -- fall through: the right-wink test is false here (right is open and
      -- left is closed), so its else branch resets the right counter; the
      -- both-open test is also false, so the final return gives NORMAL
      ({ s1 with right_wink_counter := 0 }, "NORMAL")
  else
    -- the elif chain else: left eye open, reset the left counter
    let s1 := { s with left_wink_counter := 0 }
    if right_ear < wink_threshold ∧ ¬ left_ear < wink_threshold then
      let s2 := { s1 with right_wink_counter := s1.right_wink_counter + 1 }
      if consecutive_frames ≤ s2.right_wink_counter then
        ({ s2 with right_winking := true, left_winking := false,
                   both_eyes_closed := false }, "GUINANDO_DERECHO")
      else
        -- both-open test is false (right is closed): final return NORMAL
        (s2, "NORMAL")
    else
      -- here neither eye is closed: reset right counter, both-open return
      ({ s1 with right_wink_counter := 0, left_winking := false,
                 right_winking := false, both_eyes_closed := false },
       "AMBOS_ABIERTOS")

/-- Runs detect_eye_state over a list of per-evaluation EAR pairs, keeping
the last returned state string. -/
def detectRun (s : TrackerState) (pairs : List (ℚ × ℚ)) :
    TrackerState × String :=
  pairs.foldl (fun acc p => detect_eye_state acc.1 p.1 p.2) (s, "")

/-- Embeds the per-frame state update of EyeTracker.process_frame in the
face-detected case (lines 864-880): one call to detect_eye_state followed by
the two independent per-eye blink-counting blocks. -/
def process_frame_update (s : TrackerState) (left_ear right_ear : ℚ) :
    TrackerState × String :=
  let d := detect_eye_state s left_ear right_ear
  let s1 := d.1
  let s2 :=
    if left_ear < blink_threshold then
      { s1 with left_blink_counter := s1.left_blink_counter + 1 }
    else if consecutive_frames ≤ s1.left_blink_counter then
      { s1 with left_blink_total := s1.left_blink_total + 1,
                left_blink_counter := 0 }
    else
      { s1 with left_blink_counter := 0 }
  let s3 :=
    if right_ear < blink_threshold then
      { s2 with right_blink_counter := s2.right_blink_counter + 1 }
    else if consecutive_frames ≤ s2.right_blink_counter then
      { s2 with right_blink_total := s2.right_blink_total + 1,
                right_blink_counter := 0 }
    else
      { s2 with right_blink_counter := 0 }
  (s3, d.2)

/-- The per-eye blink-counting step of EyeTracker.process_frame
(lines 868-880): the pair is the blink counter together with the cumulative
blink total of one eye, and ear is that eye measurement for the frame. -/
def blinkStep (p : ℕ × ℕ) (ear : ℚ) : ℕ × ℕ :=
  if ear < blink_threshold then (p.1 + 1, p.2)
  else if consecutive_frames ≤ p.1 then (0, p.2 + 1)
  else (0, p.2)

/-- Folds blinkStep over a sequence of per-frame EAR values for one eye. -/
def blinkRun (p : ℕ × ℕ) (ears : List ℚ) : ℕ × ℕ :=
  ears.foldl blinkStep p

/-- Minimum wall-clock interval between accepted animation ticks
(EyeTracker.__init__, line 97: 0.04 seconds). -/
def AM_FRAME_INTERVAL : ℚ := 4/100

/-- The mutable fields of the AM animation oscillator
(EyeTracker.__init__, lines 94-98). -/
structure AMState where
  am_openness : ℚ
  am_open_dir : ℤ
  am_last_update : ℚ
  am_phase : ℚ
deriving Repr, DecidableEq

/-- Character-list helper: does the text start with the pattern. -/
def charsStartWith : List Char → List Char → Bool
  | [], _ => true
  | _ :: _, [] => false
  | c :: cs, d :: ds => c == d && charsStartWith cs ds

/-- Character-list helper: does the pattern occur somewhere in the text. -/
def charsContain : List Char → List Char → Bool
  | pat, [] => pat.isEmpty
  | pat, d :: ds => charsStartWith pat (d :: ds) || charsContain pat ds

/-- Embeds the Python substring test, as in the expression
IZQUIERDA in gaze_direction of the source. -/
def strContains (s pat : String) : Bool :=
  charsContain pat.data s.data

/-- Embeds EyeTracker.update_am_state (lines 485-514): the wall-clock-gated
breathing oscillator.  The argument now is the value of time.time at the
call, client_detected the face-detected flag, gaze_direction the current
gaze label. -/
def update_am_state (s : AMState) (now : ℚ) (client_detected : Bool)
    (gaze_direction : String) : AMState :=
  if now - s.am_last_update < AM_FRAME_INTERVAL then s
  else
    let s1 := { s with am_last_update := now }
    if ¬ client_detected then { s1 with am_openness := 0 }
    else
      let o1 := s1.am_openness + (s1.am_open_dir : ℚ) * 2
      let o2 := max 0 (min 100 o1)
      let d := if o2 = 0 ∨ o2 = 100 then -s1.am_open_dir else s1.am_open_dir
      let ph : ℚ :=
        if strContains gaze_direction "IZQUIERDA" then -(8/10)
        else if strContains gaze_direction "DERECHA" then 8/10
        else 0
      { s1 with am_openness := o2, am_open_dir := d, am_phase := ph }

/-- Folds update_am_state over a list of tick times with a face detected
throughout and a fixed gaze label. -/
def amRun (s : AMState) (ticks : List ℚ) (gaze : String) : AMState :=
  ticks.foldl (fun st t => update_am_state st t true gaze) s

/-- The ideal triangle wave: openness value after n accepted face ticks of
the oscillator started at openness 0 going up. -/
def tri (n : ℕ) : ℕ :=
  if n % 100 ≤ 50 then 2 * (n % 100) else 200 - 2 * (n % 100)

/-- The ideal triangle wave direction after n accepted face ticks. -/
def triDir (n : ℕ) : ℤ :=
  if n % 100 ≤ 49 then 1 else -1

/-- Python int() truncation toward zero on an exact rational. -/
def pyInt (q : ℚ) : ℤ :=
  if q < 0 then -⌊-q⌋ else ⌊q⌋

/-- One normalized MediaPipe landmark: coordinates as exact rationals. -/
structure Landmark where
  x : ℚ
  y : ℚ
deriving Repr, DecidableEq

/-- Conversion of a normalized landmark to integer pixel coordinates, as
done at the top of the geometry methods: x scaled by frame_shape[1] and
y by frame_shape[0], both truncated by int(). -/
def to_pixel (shape0 shape1 : ℕ) (lm : Landmark) : ℤ × ℤ :=
  (pyInt (lm.x * (shape1 : ℚ)), pyInt (lm.y * (shape0 : ℚ)))

/-- Squared Euclidean distance between two pixel points. -/
def sqDist (p q : ℤ × ℤ) : ℤ :=
  (p.1 - q.1) ^ 2 + (p.2 - q.2) ^ 2

/-- Euclidean distance between two pixel points, as computed by
scipy dist.euclidean in the source. -/
noncomputable def euclid (p q : ℤ × ℤ) : ℝ :=
  Real.sqrt ((sqDist p q : ℤ) : ℝ)

/-- Embeds EyeTracker.calculate_eye_aspect_ratio (lines 100-120); the
shortened Lean name stands for the full source name.  The six contour
landmarks are converted to pixels, then EAR = (A + B) / (2 C) with A, B the
vertical distances and C the horizontal one.  The Python code divides
unconditionally; the error that a zero denominator produces at run time is
modelled by the none result, and the zero test on the exact squared
distance is equivalent to the real distance being zero. -/
noncomputable def calculate_eye_aspect (eye_landmarks : List Landmark)
    (shape0 shape1 : ℕ) : Option ℝ :=
  match eye_landmarks with
  | p0 :: p1 :: p2 :: p3 :: p4 :: p5 :: _ =>
    let q0 := to_pixel shape0 shape1 p0
    let q1 := to_pixel shape0 shape1 p1
    let q2 := to_pixel shape0 shape1 p2
    let q3 := to_pixel shape0 shape1 p3
    let q4 := to_pixel shape0 shape1 p4
    let q5 := to_pixel shape0 shape1 p5
    if sqDist q0 q3 = 0 then none
    else some ((euclid q1 q5 + euclid q2 q4) / (2 * euclid q0 q3))
  | _ => none

/-- Embeds the fps field written by EyeTracker.stop_recording
(line 376): total frames over duration, defaulting to 30 when the duration
is zero (or negative, which the Python comparison also sends to 30). -/
def recording_fps (total_frames : ℕ) (total_time : ℚ) : ℚ :=
  if 0 < total_time then (total_frames : ℚ) / total_time else 30

/-- Embeds EyeTracker.get_eyebrow_height (lines 172-200): mean pixel height
of the eyebrow points and of the eye points, absolute distance, then
normalization of the 20 to 60 pixel band into the unit interval. -/
def get_eyebrow_height (eyebrow_landmarks eye_landmarks : List Landmark)
    (shape0 shape1 : ℕ) : ℚ :=
  let eyebrow_points := eyebrow_landmarks.map (to_pixel shape0 shape1)
  let eye_points := eye_landmarks.map (to_pixel shape0 shape1)
  let eyebrow_y : ℚ :=
    ((eyebrow_points.map (fun p => p.2)).sum : ℤ) / (eyebrow_points.length : ℚ)
  let eye_y : ℚ :=
    ((eye_points.map (fun p => p.2)).sum : ℤ) / (eye_points.length : ℚ)
  let distance := |eyebrow_y - eye_y|
  max 0 (min 1 ((distance - 20) / 40))

/-- The elevation formula exactly as the claim words it: the signed
difference of the mean heights, with no absolute value, clamped to the
band 0 to 40 and divided by 40. -/
def eyebrow_elevation_claim (eyebrow_landmarks eye_landmarks : List Landmark)
    (shape0 shape1 : ℕ) : ℚ :=
  let eyebrow_points := eyebrow_landmarks.map (to_pixel shape0 shape1)
  let eye_points := eye_landmarks.map (to_pixel shape0 shape1)
  let eyebrow_y : ℚ :=
    ((eyebrow_points.map (fun p => p.2)).sum : ℤ) / (eyebrow_points.length : ℚ)
  let eye_y : ℚ :=
    ((eye_points.map (fun p => p.2)).sum : ℤ) / (eye_points.length : ℚ)
  max 0 (min 40 ((eyebrow_y - eye_y) - 20)) / 40

/-- Size bound of the gaze smoothing window (EyeTracker.__init__, line 69). -/
def history_size : ℕ := 3

/-- Result of one call to the gaze estimator: new history, direction label
and smoothed position. -/
structure GazeResult where
  history : List (ℚ × ℚ)
  direction : String
  position : ℚ × ℚ
deriving Repr, DecidableEq

/-- Embeds EyeTracker.detect_eye_movement (lines 247-297) in the
landmarks=None instantiation (the optional iris block merely replaces the
two center arguments before this code runs).  The two eye centers are pixel
points; they are normalized by the frame dimensions, averaged into one
midpoint, appended to the history, the oldest history entry is evicted when
the window exceeds its bound, and the direction label is read off the
window average with the fixed thresholds. -/
def detect_eye_movement (history : List (ℚ × ℚ))
    (left_center right_center : ℤ × ℤ) (shape0 shape1 : ℕ) : GazeResult :=
  let left_x_norm : ℚ := (left_center.1 : ℚ) / (shape1 : ℚ)
  let left_y_norm : ℚ := (left_center.2 : ℚ) / (shape0 : ℚ)
  let right_x_norm : ℚ := (right_center.1 : ℚ) / (shape1 : ℚ)
  let right_y_norm : ℚ := (right_center.2 : ℚ) / (shape0 : ℚ)
  let gaze_x := (left_x_norm + right_x_norm) / 2
  let gaze_y := (left_y_norm + right_y_norm) / 2
  let h1 := history ++ [(gaze_x, gaze_y)]
  let h2 := if history_size < h1.length then h1.drop 1 else h1
  let avg_x : ℚ := (h2.map (fun p => p.1)).sum / (h2.length : ℚ)
  let avg_y : ℚ := (h2.map (fun p => p.2)).sum / (h2.length : ℚ)
  let dir0 : String :=
    if avg_x < 42/100 then "IZQUIERDA"
    else if 58/100 < avg_x then "DERECHA"
    else "CENTRO"
  let dir : String :=
    if avg_y < 42/100 then dir0 ++ "_ARRIBA"
    else if 58/100 < avg_y then dir0 ++ "_ABAJO"
    else dir0
  ⟨h2, dir, (avg_x, avg_y)⟩

/-- Iterates detect_eye_movement on a constant pair of eye centers,
keeping only the evolving history between calls and returning the result
of the last call. -/
def gazeRun (history : List (ℚ × ℚ)) (left_center right_center : ℤ × ℤ)
    (shape0 shape1 : ℕ) : ℕ → GazeResult
  | 0 => detect_eye_movement history left_center right_center shape0 shape1
  | n + 1 =>
    gazeRun (detect_eye_movement history left_center right_center
      shape0 shape1).history left_center right_center shape0 shape1 n

/-- Maximum recording duration in seconds (EyeTracker.__init__, line 78). -/
def max_recording_time : ℚ := 60

/-- Minimum interval between captured recording frames
(EyeTracker.__init__, line 79: one thirtieth of a second). -/
def frame_interval : ℚ := 1/30

/-- The mutable recording fields of EyeTracker (lines 75-85).  Log entries
are modelled by their timestamp field (seconds since session start); video
frames by their count; flushes counts completed stop transitions. -/
structure RecorderState where
  is_recording : Bool
  recording_start_time : ℚ
  last_frame_time : ℚ
  animation_frames : List ℚ
  video_frames : ℕ
  flushes : ℕ
deriving Repr, DecidableEq

/-- Embeds EyeTracker.start_recording (lines 340-358): a no-op when already
recording, otherwise buffers are emptied and both timestamps set to now. -/
def start_recording (s : RecorderState) (now : ℚ) : RecorderState :=
  if s.is_recording then s
  else
    { s with is_recording := true, animation_frames := [],
             video_frames := 0, recording_start_time := now,
             last_frame_time := now }

/-- Embeds EyeTracker.stop_recording (lines 360-427): a no-op when not
recording, otherwise the session ends, the artifacts are flushed (counted
here) and the video buffer is cleared; the log buffer is kept, exactly as
in the source. -/
def stop_recording (s : RecorderState) : RecorderState :=
  if s.is_recording then
    { s with is_recording := false, video_frames := 0,
             flushes := s.flushes + 1 }
  else s

/-- Embeds EyeTracker.capture_frame_for_recording (lines 429-483): inactive
sessions ignore the call; past the 60 second limit the session is stopped;
otherwise a sample is taken only when at least frame_interval has elapsed
since the last accepted capture, in which case one log entry (carrying the
elapsed time since start) and one video frame are appended and the capture
clock is reset to now. -/
def capture_frame_for_recording (s : RecorderState) (now : ℚ) :
    RecorderState :=
  if s.is_recording = false then s
  else if max_recording_time < now - s.recording_start_time then
    stop_recording s
  else if frame_interval ≤ now - s.last_frame_time then
    { s with
      animation_frames := s.animation_frames ++ [now - s.recording_start_time],
      video_frames := s.video_frames + 1,
      last_frame_time := now }
  else s

/-- Folds capture_frame_for_recording over a list of call times. -/
def captureRun (s : RecorderState) (ts : List ℚ) : RecorderState :=
  ts.foldl capture_frame_for_recording s

/-- Fixed box width in the rectangle render modes
(draw_virtual_eyes, lines 614 and 638). -/
def rect_width : ℤ := 80

/-- The base box height of one eye in the rectangle render modes
(draw_virtual_eyes, lines 549-554): EAR mapped through the 0.35 scale,
truncated by int(), then clamped between 8 and 100. -/
def base_eye_height (ear : ℚ) : ℤ :=
  max 8 (min 100 (pyInt (ear / (35/100) * 100)))

/-- Embeds the eye-state-dependent part of EyeTracker.draw_virtual_eyes
(lines 549-571): the renderer calls detect_eye_state itself, then halves
box heights with integer division according to the sticky state flags or
the freshly returned state string.  Returns the updated tracker state, the
two box widths and the two box heights. -/
def draw_heights (s : TrackerState) (left_ear right_ear : ℚ) :
    TrackerState × (ℤ × ℤ) × (ℤ × ℤ) :=
  let bl := base_eye_height left_ear
  let br := base_eye_height right_ear
  let d := detect_eye_state s left_ear right_ear
  let s1 := d.1
  let eye_state := d.2
  if s1.both_eyes_closed = true ∨ eye_state = "AMBOS_CERRADOS" then
    (s1, (rect_width, bl / 2), (rect_width, br / 2))
  else if s1.left_winking = true ∨ eye_state = "GUINANDO_IZQUIERDO" then
    (s1, (rect_width, bl / 2), (rect_width, br))
  else if s1.right_winking = true ∨ eye_state = "GUINANDO_DERECHO" then
    (s1, (rect_width, bl), (rect_width, br / 2))
  else
    (s1, (rect_width, bl), (rect_width, br))

/-- The eye-state evaluations one external frame performs on the shared
tracker state (run_virtual_eye_tracker, lines 1026 and 1113): first
process_frame calls detect_eye_state (line 865), then draw_virtual_eyes
calls it again with the same EAR pair (line 557).  The returned string is
the one the renderer sees. -/
def external_frame_eye_state (s : TrackerState) (left_ear right_ear : ℚ) :
    TrackerState × String :=
  let s1 := (process_frame_update s left_ear right_ear).1
  detect_eye_state s1 left_ear right_ear

/-- Flattens a list of blocks, each a maximal closed run followed by one
open frame, into the frame sequence it denotes. -/
def blockFlat (bs : List (List ℚ × ℚ)) : List ℚ :=
  (bs.map (fun b => b.1 ++ [b.2])).flatten

/-- The raw pixel distance between the mean eyebrow height and the mean eye
height, as computed inside get_eyebrow_height (line 195 of the source). -/
def browEyeDist (eyebrow_landmarks eye_landmarks : List Landmark)
    (shape0 shape1 : ℕ) : ℚ :=
  let eyebrow_points := eyebrow_landmarks.map (to_pixel shape0 shape1)
  let eye_points := eye_landmarks.map (to_pixel shape0 shape1)
  let eyebrow_y : ℚ :=
    ((eyebrow_points.map (fun p => p.2)).sum : ℤ) / (eyebrow_points.length : ℚ)
  let eye_y : ℚ :=
    ((eye_points.map (fun p => p.2)).sum : ℤ) / (eye_points.length : ℚ)
  |eyebrow_y - eye_y|

/-- The spacing invariant of a recorder state: consecutive log timestamps
are at least frame_interval apart and the latest one is not ahead of the
capture clock. -/
def SpacingInv (s : RecorderState) : Prop :=
  List.Chain' (fun a b => a + frame_interval ≤ b) s.animation_frames ∧
  ∀ t, s.animation_frames.getLast? = some t →
    t ≤ s.last_frame_time - s.recording_start_time

/-- The normalized midpoint of the two eye centers, as computed at the top
of detect_eye_movement (lines 266-274). -/
def gaze_midpoint (left_center right_center : ℤ × ℤ) (shape0 shape1 : ℕ) :
    ℚ × ℚ :=
  (((left_center.1 : ℚ) / (shape1 : ℚ) + (right_center.1 : ℚ) / (shape1 : ℚ)) / 2,
   ((left_center.2 : ℚ) / (shape0 : ℚ) + (right_center.2 : ℚ) / (shape0 : ℚ)) / 2)

/-- The horizontal component of the direction label (lines 286-290). -/
def horizLabel (x : ℚ) : String :=
  if x < 42/100 then "IZQUIERDA"
  else if 58/100 < x then "DERECHA"
  else "CENTRO"

/-- The vertical component of the direction label (lines 292-295); the
vertical CENTER case appends nothing, exactly as the source does. -/
def vertSuffix (y : ℚ) : String :=
  if y < 42/100 then "_ARRIBA"
  else if 58/100 < y then "_ABAJO"
  else ""

/-! ### Lemmas about the eye-state classifier -/

lemma detect_both_closed (s : TrackerState) (l r : ℚ)
    (hl : l < wink_threshold) (hr : r < wink_threshold) :
    detect_eye_state s l r =
      ({ s with both_eyes_closed := true, left_winking := false,
                right_winking := false }, "AMBOS_CERRADOS") := by
  simp only [detect_eye_state, if_pos (And.intro hl hr)]

lemma detect_left_only (s : TrackerState) (l r : ℚ)
    (hl : l < wink_threshold) (hr : ¬ r < wink_threshold) :
    detect_eye_state s l r =
      (if 2 ≤ s.left_wink_counter + 1 then
        ({ s with left_wink_counter := s.left_wink_counter + 1,
                  left_winking := true, right_winking := false,
                  both_eyes_closed := false }, "GUINANDO_IZQUIERDO")
      else
        ({ s with left_wink_counter := s.left_wink_counter + 1,
                  right_wink_counter := 0 }, "NORMAL")) := by
  have h1 : ¬ (l < wink_threshold ∧ r < wink_threshold) := fun h => hr h.2
  have h2 : l < wink_threshold ∧ ¬ r < wink_threshold := ⟨hl, hr⟩
  simp only [detect_eye_state, if_neg h1, if_pos h2, consecutive_frames]

lemma detect_right_only (s : TrackerState) (l r : ℚ)
    (hl : ¬ l < wink_threshold) (hr : r < wink_threshold) :
    detect_eye_state s l r =
      (if 2 ≤ s.right_wink_counter + 1 then
        ({ s with left_wink_counter := 0,
                  right_wink_counter := s.right_wink_counter + 1,
                  right_winking := true, left_winking := false,
                  both_eyes_closed := false }, "GUINANDO_DERECHO")
      else
        ({ s with left_wink_counter := 0,
                  right_wink_counter := s.right_wink_counter + 1 }, "NORMAL")) := by
  have h1 : ¬ (l < wink_threshold ∧ r < wink_threshold) := fun h => hl h.1
  have h2 : ¬ (l < wink_threshold ∧ ¬ r < wink_threshold) := fun h => hl h.1
  have h3 : r < wink_threshold ∧ ¬ l < wink_threshold := ⟨hr, hl⟩
  simp only [detect_eye_state, if_neg h1, if_neg h2, if_pos h3,
    consecutive_frames]

lemma detect_both_open (s : TrackerState) (l r : ℚ)
    (hl : ¬ l < wink_threshold) (hr : ¬ r < wink_threshold) :
    detect_eye_state s l r =
      ({ s with left_wink_counter := 0, right_wink_counter := 0,
                left_winking := false, right_winking := false,
                both_eyes_closed := false }, "AMBOS_ABIERTOS") := by
  have h1 : ¬ (l < wink_threshold ∧ r < wink_threshold) := fun h => hl h.1
  have h2 : ¬ (l < wink_threshold ∧ ¬ r < wink_threshold) := fun h => hl h.1
  have h3 : ¬ (r < wink_threshold ∧ ¬ l < wink_threshold) := fun h => hr h.1
  simp only [detect_eye_state, if_neg h1, if_neg h2, if_neg h3]

lemma detect_no_left_wink (s : TrackerState) (l r : ℚ)
    (hl : ¬ l < wink_threshold) :
    (detect_eye_state s l r).2 ≠ "GUINANDO_IZQUIERDO" := by
  by_cases hr : r < wink_threshold
  · rw [detect_right_only s l r hl hr]
    by_cases h2 : 2 ≤ s.right_wink_counter + 1
    · rw [if_pos h2]
      show ("GUINANDO_DERECHO" : String) ≠ "GUINANDO_IZQUIERDO"
      decide
    · rw [if_neg h2]
      show ("NORMAL" : String) ≠ "GUINANDO_IZQUIERDO"
      decide
  · rw [detect_both_open s l r hl hr]
    show ("AMBOS_ABIERTOS" : String) ≠ "GUINANDO_IZQUIERDO"
    decide

lemma detect_no_right_wink (s : TrackerState) (l r : ℚ)
    (hr : ¬ r < wink_threshold) :
    (detect_eye_state s l r).2 ≠ "GUINANDO_DERECHO" := by
  by_cases hl : l < wink_threshold
  · rw [detect_left_only s l r hl hr]
    by_cases h2 : 2 ≤ s.left_wink_counter + 1
    · rw [if_pos h2]
      show ("GUINANDO_IZQUIERDO" : String) ≠ "GUINANDO_DERECHO"
      decide
    · rw [if_neg h2]
      show ("NORMAL" : String) ≠ "GUINANDO_DERECHO"
      decide
  · rw [detect_both_open s l r hl hr]
    show ("AMBOS_ABIERTOS" : String) ≠ "GUINANDO_DERECHO"
    decide

lemma detect_fold_left_only :
    ∀ (ps : List (ℚ × ℚ)) (a : TrackerState × String) (n : ℕ),
    a.1.left_wink_counter = n →
    (∀ p ∈ ps, p.1 < wink_threshold ∧ ¬ p.2 < wink_threshold) →
    (ps.foldl (fun acc p => detect_eye_state acc.1 p.1 p.2)
        a).1.left_wink_counter = n + ps.length ∧
    (ps ≠ [] → 2 ≤ n + ps.length →
      (ps.foldl (fun acc p => detect_eye_state acc.1 p.1 p.2)
        a).2 = "GUINANDO_IZQUIERDO") := by
  intro ps
  induction ps with
  | nil => intro a n hn _; simpa using hn
  | cons p ps ih =>
    intro a n hn hmem
    have hp := hmem p (List.mem_cons_self p ps)
    have hstep := detect_left_only a.1 p.1 p.2 hp.1 hp.2
    rw [hn] at hstep
    have hrest : ∀ q ∈ ps, q.1 < wink_threshold ∧ ¬ q.2 < wink_threshold :=
      fun q hq => hmem q (List.mem_cons_of_mem p hq)
    rw [List.foldl_cons, hstep]
    by_cases h2 : 2 ≤ n + 1
    · rw [if_pos h2]
      obtain ⟨hcnt, hout⟩ := ih ({ a.1 with left_wink_counter := n + 1, left_winking := true, right_winking := false, both_eyes_closed := false }, "GUINANDO_IZQUIERDO") (n + 1) rfl hrest
      refine ⟨by rw [hcnt]; simp only [List.length_cons]; omega, ?_⟩
      intro _ _
      cases ps with
      | nil => simp
      | cons q qs =>
        exact hout (by simp) (by simp only [List.length_cons]; omega)
    · rw [if_neg h2]
      obtain ⟨hcnt, hout⟩ := ih ({ a.1 with left_wink_counter := n + 1, right_wink_counter := 0 }, "NORMAL") (n + 1) rfl hrest
      refine ⟨by rw [hcnt]; simp only [List.length_cons]; omega, ?_⟩
      intro _ hlen
      cases ps with
      | nil =>
        simp only [List.length_cons, List.length_nil] at hlen
        omega
      | cons q qs =>
        exact hout (by simp) (by simp only [List.length_cons]; omega)

lemma detect_fold_right_only :
    ∀ (ps : List (ℚ × ℚ)) (a : TrackerState × String) (n : ℕ),
    a.1.right_wink_counter = n →
    (∀ p ∈ ps, ¬ p.1 < wink_threshold ∧ p.2 < wink_threshold) →
    (ps.foldl (fun acc p => detect_eye_state acc.1 p.1 p.2)
        a).1.right_wink_counter = n + ps.length ∧
    (ps ≠ [] → 2 ≤ n + ps.length →
      (ps.foldl (fun acc p => detect_eye_state acc.1 p.1 p.2)
        a).2 = "GUINANDO_DERECHO") := by
  intro ps
  induction ps with
  | nil => intro a n hn _; simpa using hn
  | cons p ps ih =>
    intro a n hn hmem
    have hp := hmem p (List.mem_cons_self p ps)
    have hstep := detect_right_only a.1 p.1 p.2 hp.1 hp.2
    rw [hn] at hstep
    have hrest : ∀ q ∈ ps, ¬ q.1 < wink_threshold ∧ q.2 < wink_threshold :=
      fun q hq => hmem q (List.mem_cons_of_mem p hq)
    rw [List.foldl_cons, hstep]
    by_cases h2 : 2 ≤ n + 1
    · rw [if_pos h2]
      obtain ⟨hcnt, hout⟩ := ih ({ a.1 with left_wink_counter := 0, right_wink_counter := n + 1, right_winking := true, left_winking := false, both_eyes_closed := false }, "GUINANDO_DERECHO") (n + 1) rfl hrest
      refine ⟨by rw [hcnt]; simp only [List.length_cons]; omega, ?_⟩
      intro _ _
      cases ps with
      | nil => simp
      | cons q qs =>
        exact hout (by simp) (by simp only [List.length_cons]; omega)
    · rw [if_neg h2]
      obtain ⟨hcnt, hout⟩ := ih ({ a.1 with left_wink_counter := 0, right_wink_counter := n + 1 }, "NORMAL") (n + 1) rfl hrest
      refine ⟨by rw [hcnt]; simp only [List.length_cons]; omega, ?_⟩
      intro _ hlen
      cases ps with
      | nil =>
        simp only [List.length_cons, List.length_nil] at hlen
        omega
      | cons q qs =>
        exact hout (by simp) (by simp only [List.length_cons]; omega)

/-- Claim C1 (amended): the classifier follows the fixed precedence: when
both EAR values are below 0.18 the result is AMBOS_CERRADOS and the two
wink counters are left unchanged (a pending debounce survives, it is not
reset); a run of at least two consecutive evaluations with the left EAR
below 0.18 and the right at or above it ends in GUINANDO_IZQUIERDO, and an
evaluation with the left eye open never yields GUINANDO_IZQUIERDO; the
right-wink case is symmetric; when neither EAR is below 0.18 the result is
the open state AMBOS_ABIERTOS with both wink counters reset to zero. -/
theorem C1_eye_state_precedence :
    (∀ (s : TrackerState) (l r : ℚ), l < wink_threshold →
      r < wink_threshold →
      (detect_eye_state s l r).2 = "AMBOS_CERRADOS" ∧
      (detect_eye_state s l r).1.left_wink_counter = s.left_wink_counter ∧
      (detect_eye_state s l r).1.right_wink_counter = s.right_wink_counter) ∧
    (∀ (s : TrackerState) (ps : List (ℚ × ℚ)), 2 ≤ ps.length →
      (∀ p ∈ ps, p.1 < wink_threshold ∧ ¬ p.2 < wink_threshold) →
      (detectRun s ps).2 = "GUINANDO_IZQUIERDO") ∧
    (∀ (s : TrackerState) (l r : ℚ), ¬ l < wink_threshold →
      (detect_eye_state s l r).2 ≠ "GUINANDO_IZQUIERDO") ∧
    (∀ (s : TrackerState) (ps : List (ℚ × ℚ)), 2 ≤ ps.length →
      (∀ p ∈ ps, ¬ p.1 < wink_threshold ∧ p.2 < wink_threshold) →
      (detectRun s ps).2 = "GUINANDO_DERECHO") ∧
    (∀ (s : TrackerState) (l r : ℚ), ¬ r < wink_threshold →
      (detect_eye_state s l r).2 ≠ "GUINANDO_DERECHO") ∧
    (∀ (s : TrackerState) (l r : ℚ), ¬ l < wink_threshold →
      ¬ r < wink_threshold →
      (detect_eye_state s l r).2 = "AMBOS_ABIERTOS" ∧
      (detect_eye_state s l r).1.left_wink_counter = 0 ∧
      (detect_eye_state s l r).1.right_wink_counter = 0) := by
  refine ⟨?_, ?_, ?_, ?_, ?_, ?_⟩
  · intro s l r hl hr
    rw [detect_both_closed s l r hl hr]
    exact ⟨rfl, rfl, rfl⟩
  · intro s ps hlen hmem
    have h := detect_fold_left_only ps (s, "") s.left_wink_counter rfl hmem
    exact h.2 (by intro hnil; rw [hnil] at hlen; simp at hlen) (by omega)
  · exact detect_no_left_wink
  · intro s ps hlen hmem
    have h := detect_fold_right_only ps (s, "") s.right_wink_counter rfl hmem
    exact h.2 (by intro hnil; rw [hnil] at hlen; simp at hlen) (by omega)
  · exact detect_no_right_wink
  · intro s l r hl hr
    rw [detect_both_open s l r hl hr]
    exact ⟨rfl, rfl, rfl⟩

/-- Claim C1 witness: the six parts of the precedence theorem evaluated at
concrete EAR values around the 0.18 threshold. -/
theorem C1_eye_state_precedence_witness :
    ((detect_eye_state initState (1/10) (1/10)).2 = "AMBOS_CERRADOS" ∧
      (detect_eye_state initState (1/10) (1/10)).1.left_wink_counter =
        initState.left_wink_counter ∧
      (detect_eye_state initState (1/10) (1/10)).1.right_wink_counter =
        initState.right_wink_counter) ∧
    (detectRun initState [(1/10, 3/10), (1/10, 3/10)]).2 =
      "GUINANDO_IZQUIERDO" ∧
    (detect_eye_state initState (3/10) (1/10)).2 ≠ "GUINANDO_IZQUIERDO" ∧
    (detectRun initState [(3/10, 1/10), (3/10, 1/10)]).2 =
      "GUINANDO_DERECHO" ∧
    (detect_eye_state initState (1/10) (3/10)).2 ≠ "GUINANDO_DERECHO" ∧
    ((detect_eye_state initState (3/10) (3/10)).2 = "AMBOS_ABIERTOS" ∧
      (detect_eye_state initState (3/10) (3/10)).1.left_wink_counter = 0 ∧
      (detect_eye_state initState (3/10) (3/10)).1.right_wink_counter = 0) := by
  have hc : (1 : ℚ)/10 < wink_threshold := by norm_num [wink_threshold]
  have ho : ¬ (3 : ℚ)/10 < wink_threshold := by norm_num [wink_threshold]
  refine ⟨C1_eye_state_precedence.1 initState (1/10) (1/10) hc hc,
    C1_eye_state_precedence.2.1 initState _ (by simp) ?_,
    C1_eye_state_precedence.2.2.1 initState (3/10) (1/10) ho,
    C1_eye_state_precedence.2.2.2.1 initState _ (by simp) ?_,
    C1_eye_state_precedence.2.2.2.2.1 initState (1/10) (3/10) ho,
    C1_eye_state_precedence.2.2.2.2.2 initState (3/10) (3/10) ho ho⟩
  · intro p hp
    simp only [List.mem_cons, List.not_mem_nil, or_false] at hp
    rcases hp with h | h <;> subst h <;> exact ⟨hc, ho⟩
  · intro p hp
    simp only [List.mem_cons, List.not_mem_nil, or_false] at hp
    rcases hp with h | h <;> subst h <;> exact ⟨ho, hc⟩

/-- Claim C1 counterexample: one left-closed evaluation leaves the left
wink counter at 1; the following evaluation with both EAR values below
0.18 returns AMBOS_CERRADOS but keeps that counter at 1 instead of
resetting it as the claim states. -/
theorem C1_counterexample :
    (detect_eye_state (detect_eye_state initState (1/10) (3/10)).1
      (1/10) (1/10)).2 = "AMBOS_CERRADOS" ∧
    (detect_eye_state (detect_eye_state initState (1/10) (3/10)).1
      (1/10) (1/10)).1.left_wink_counter = 1 := by
  norm_num [detect_eye_state, wink_threshold, initState, consecutive_frames]

/-! ### Lemmas shared by the wink and blink claims -/

lemma detect_left_only_counter (s : TrackerState) (l r : ℚ)
    (hl : l < wink_threshold) (hr : ¬ r < wink_threshold) :
    (detect_eye_state s l r).1.left_wink_counter = s.left_wink_counter + 1 := by
  rw [detect_left_only s l r hl hr]
  split <;> rfl

lemma detect_right_only_counter (s : TrackerState) (l r : ℚ)
    (hl : ¬ l < wink_threshold) (hr : r < wink_threshold) :
    (detect_eye_state s l r).1.right_wink_counter = s.right_wink_counter + 1 := by
  rw [detect_right_only s l r hl hr]
  split <;> rfl

lemma detect_blink_fields (s : TrackerState) (l r : ℚ) :
    (detect_eye_state s l r).1.left_blink_counter = s.left_blink_counter ∧
    (detect_eye_state s l r).1.left_blink_total = s.left_blink_total ∧
    (detect_eye_state s l r).1.right_blink_counter = s.right_blink_counter ∧
    (detect_eye_state s l r).1.right_blink_total = s.right_blink_total := by
  simp only [detect_eye_state]
  split_ifs <;> exact ⟨rfl, rfl, rfl, rfl⟩

lemma process_frame_wink_fields (s : TrackerState) (l r : ℚ) :
    (process_frame_update s l r).1.left_wink_counter =
      (detect_eye_state s l r).1.left_wink_counter ∧
    (process_frame_update s l r).1.right_wink_counter =
      (detect_eye_state s l r).1.right_wink_counter := by
  simp only [process_frame_update]
  split_ifs <;> exact ⟨rfl, rfl⟩

/-- Claim C10: the run loop evaluates detect_eye_state twice on the same
EAR pair per external frame (once in process_frame, once in
draw_virtual_eyes), so a one-sided closure advances the wink counter by 2
in one external frame, and the renderer already sees the wink state after
a single external frame of one-sided closure, whatever the starting
counter value. -/
theorem C10_double_evaluation :
    (∀ (s : TrackerState) (l r : ℚ), l < wink_threshold →
      ¬ r < wink_threshold →
      (external_frame_eye_state s l r).1.left_wink_counter =
        s.left_wink_counter + 2 ∧
      (external_frame_eye_state s l r).2 = "GUINANDO_IZQUIERDO") ∧
    (∀ (s : TrackerState) (l r : ℚ), ¬ l < wink_threshold →
      r < wink_threshold →
      (external_frame_eye_state s l r).1.right_wink_counter =
        s.right_wink_counter + 2 ∧
      (external_frame_eye_state s l r).2 = "GUINANDO_DERECHO") := by
  constructor
  · intro s l r hl hr
    have hp : (process_frame_update s l r).1.left_wink_counter =
        s.left_wink_counter + 1 := by
      rw [(process_frame_wink_fields s l r).1,
        detect_left_only_counter s l r hl hr]
    simp only [external_frame_eye_state]
    constructor
    · rw [detect_left_only_counter _ l r hl hr, hp]
    · rw [detect_left_only _ l r hl hr, hp, if_pos (by omega)]
  · intro s l r hl hr
    have hp : (process_frame_update s l r).1.right_wink_counter =
        s.right_wink_counter + 1 := by
      rw [(process_frame_wink_fields s l r).2,
        detect_right_only_counter s l r hl hr]
    simp only [external_frame_eye_state]
    constructor
    · rw [detect_right_only_counter _ l r hl hr, hp]
    · rw [detect_right_only _ l r hl hr, hp, if_pos (by omega)]

/-- Claim C10 witness: from the initial state, one external frame with the
left EAR at 0.1 and the right at 0.3 leaves the wink counter at 2 and
makes the renderer report the left wink immediately. -/
theorem C10_double_evaluation_witness :
    (external_frame_eye_state initState (1/10) (3/10)).1.left_wink_counter =
      initState.left_wink_counter + 2 ∧
    (external_frame_eye_state initState (1/10) (3/10)).2 =
      "GUINANDO_IZQUIERDO" :=
  C10_double_evaluation.1 initState (1/10) (3/10)
    (by norm_num [wink_threshold]) (by norm_num [wink_threshold])

/-! ### Blink counting -/

lemma blinkRun_cons (p : ℕ × ℕ) (e : ℚ) (es : List ℚ) :
    blinkRun p (e :: es) = blinkRun (blinkStep p e) es := rfl

lemma blinkRun_append (p : ℕ × ℕ) (l1 l2 : List ℚ) :
    blinkRun p (l1 ++ l2) = blinkRun (blinkRun p l1) l2 := by
  simp only [blinkRun, List.foldl_append]

lemma blinkRun_closed :
    ∀ (cs : List ℚ) (c t : ℕ), (∀ e ∈ cs, e < blink_threshold) →
    blinkRun (c, t) cs = (c + cs.length, t) := by
  intro cs
  induction cs with
  | nil => intro c t _; simp [blinkRun]
  | cons e es ih =>
    intro c t hmem
    have he := hmem e (List.mem_cons_self e es)
    have hstep : blinkStep (c, t) e = (c + 1, t) := by
      simp [blinkStep, if_pos he]
    rw [blinkRun_cons, hstep,
      ih (c + 1) t (fun q hq => hmem q (List.mem_cons_of_mem e hq))]
    simp only [List.length_cons]
    exact congrArg (fun m => (m, t)) (by omega)

lemma blink_block (cs : List ℚ) (o : ℚ) (t : ℕ)
    (hc : ∀ e ∈ cs, e < blink_threshold) (ho : ¬ o < blink_threshold) :
    blinkRun (0, t) (cs ++ [o]) =
      (0, t + if 2 ≤ cs.length then 1 else 0) := by
  rw [blinkRun_append, blinkRun_closed cs 0 t hc]
  simp only [Nat.zero_add]
  show blinkStep (cs.length, t) o = _
  simp only [blinkStep, if_neg ho, consecutive_frames]
  split_ifs <;> simp

lemma blink_blocks :
    ∀ (bs : List (List ℚ × ℚ)) (t : ℕ),
    (∀ b ∈ bs, (∀ e ∈ b.1, e < blink_threshold) ∧ ¬ b.2 < blink_threshold) →
    blinkRun (0, t) (blockFlat bs) =
      (0, t + bs.countP (fun b => decide (2 ≤ b.1.length))) := by
  intro bs
  induction bs with
  | nil => intro t _; simp [blockFlat, blinkRun]
  | cons b bs ih =>
    intro t hmem
    have hb := hmem b (List.mem_cons_self b bs)
    have hflat : blockFlat (b :: bs) = (b.1 ++ [b.2]) ++ blockFlat bs := by
      simp [blockFlat]
    rw [hflat, blinkRun_append, blink_block b.1 b.2 t hb.1 hb.2,
      ih _ (fun q hq => hmem q (List.mem_cons_of_mem b hq)),
      List.countP_cons]
    refine congrArg (fun m => ((0 : ℕ), m)) ?_
    by_cases h2 : 2 ≤ b.1.length
    · simp [h2]
      omega
    · simp [h2]

/-- Claim C2: per eye and independently of wink classification, the blink
fields evolve exactly as the pure per-eye step blinkStep applied to that
eye's own counter and total (the wink machinery running in the same frame
update never touches them); over a frame sequence decomposed into maximal
closed runs each followed by an open frame, every run of length at least 2
adds exactly 1 to the cumulative total, shorter runs and the open frames
add nothing; and a sequence of closed frames alone never changes the
total. -/
theorem C2_blink_counting :
    (∀ (s : TrackerState) (l r : ℚ),
      ((process_frame_update s l r).1.left_blink_counter,
        (process_frame_update s l r).1.left_blink_total) =
          blinkStep (s.left_blink_counter, s.left_blink_total) l ∧
      ((process_frame_update s l r).1.right_blink_counter,
        (process_frame_update s l r).1.right_blink_total) =
          blinkStep (s.right_blink_counter, s.right_blink_total) r) ∧
    (∀ (bs : List (List ℚ × ℚ)) (t : ℕ),
      (∀ b ∈ bs, (∀ e ∈ b.1, e < blink_threshold) ∧
        ¬ b.2 < blink_threshold) →
      blinkRun (0, t) (blockFlat bs) =
        (0, t + bs.countP (fun b => decide (2 ≤ b.1.length)))) ∧
    (∀ (cs : List ℚ) (c t : ℕ), (∀ e ∈ cs, e < blink_threshold) →
      blinkRun (c, t) cs = (c + cs.length, t)) := by
  refine ⟨?_, blink_blocks, blinkRun_closed⟩
  intro s l r
  have hd := detect_blink_fields s l r
  simp only [process_frame_update, blinkStep]
  obtain ⟨h1, h2, h3, h4⟩ := hd
  split_ifs with a1 a2 a3 a4 a5 a6 a7 a8 a9 <;> simp_all

/-- Claim C2 witness: the frame update at concrete EAR values agrees with
the pure blink step; two blocks (a run of two closed frames and a run of
one closed frame, each followed by an open frame) add exactly one blink;
a closed run alone only advances the counter. -/
theorem C2_blink_counting_witness :
    ((process_frame_update initState (1/10) (3/10)).1.left_blink_counter,
      (process_frame_update initState (1/10) (3/10)).1.left_blink_total) =
        blinkStep (initState.left_blink_counter,
          initState.left_blink_total) (1/10) ∧
    blinkRun (0, 0) (blockFlat [([1/10, 1/10], 3/10), ([1/10], 3/10)]) =
      (0, 1) ∧
    blinkRun (3, 5) [1/10, 1/10] = (3 + 2, 5) := by
  have hc : (1 : ℚ)/10 < blink_threshold := by norm_num [blink_threshold]
  have ho : ¬ (3 : ℚ)/10 < blink_threshold := by norm_num [blink_threshold]
  refine ⟨(C2_blink_counting.1 initState (1/10) (3/10)).1, ?_, ?_⟩
  · have h := C2_blink_counting.2.1
      [([1/10, 1/10], 3/10), ([1/10], 3/10)] 0 ?_
    · rw [h]; rfl
    · intro b hb
      simp only [List.mem_cons, List.not_mem_nil, or_false] at hb
      rcases hb with h | h <;> subst h <;> refine ⟨?_, ho⟩ <;>
        intro e he <;>
        simp only [List.mem_cons, List.not_mem_nil, or_false] at he
      · rcases he with h | h <;> subst h <;> exact hc
      · subst he; exact hc
  · have h := C2_blink_counting.2.2 [1/10, 1/10] 3 5 ?_
    · exact h
    · intro e he
      simp only [List.mem_cons, List.not_mem_nil, or_false] at he
      rcases he with h | h <;> subst h <;> exact hc

/-! ### The AM animation oscillator -/

lemma am_tick_skip (s : AMState) (now : ℚ) (detected : Bool) (g : String)
    (h : now - s.am_last_update < AM_FRAME_INTERVAL) :
    update_am_state s now detected g = s := by
  simp only [update_am_state, if_pos h]

lemma am_tick_noface (s : AMState) (now : ℚ) (g : String)
    (h : AM_FRAME_INTERVAL ≤ now - s.am_last_update) :
    update_am_state s now false g =
      { s with am_last_update := now, am_openness := 0 } := by
  simp [update_am_state, if_neg (not_lt.mpr h)]

lemma am_tick_face (s : AMState) (now : ℚ) (g : String)
    (h : AM_FRAME_INTERVAL ≤ now - s.am_last_update) :
    (update_am_state s now true g).am_openness =
      max 0 (min 100 (s.am_openness + (s.am_open_dir : ℚ) * 2)) ∧
    (update_am_state s now true g).am_open_dir =
      (if max 0 (min 100 (s.am_openness + (s.am_open_dir : ℚ) * 2)) = 0 ∨
          max 0 (min 100 (s.am_openness + (s.am_open_dir : ℚ) * 2)) = 100
       then -s.am_open_dir else s.am_open_dir) ∧
    (update_am_state s now true g).am_last_update = now ∧
    (update_am_state s now true g).am_phase =
      (if strContains g "IZQUIERDA" then -(8/10)
       else if strContains g "DERECHA" then 8/10
       else (0 : ℚ)) := by
  simp [update_am_state, if_neg (not_lt.mpr h)]

lemma tri_le (n : ℕ) : tri n ≤ 100 := by
  have h := Nat.mod_lt n (show 0 < 100 by norm_num)
  unfold tri
  split_ifs <;> omega

lemma tri_step (n : ℕ) :
    (tri (n + 1) : ℚ) =
        max 0 (min 100 ((tri n : ℚ) + (triDir n : ℚ) * 2)) ∧
    triDir (n + 1) =
      (if max 0 (min 100 ((tri n : ℚ) + (triDir n : ℚ) * 2)) = 0 ∨
          max 0 (min 100 ((tri n : ℚ) + (triDir n : ℚ) * 2)) = 100
       then -(triDir n) else triDir n) := by
  have hm : n % 100 < 100 := Nat.mod_lt n (by norm_num)
  have hcast : ((n % 100 : ℕ) : ℚ) < 100 := by exact_mod_cast hm
  have hnn : (0 : ℚ) ≤ ((n % 100 : ℕ) : ℚ) := Nat.cast_nonneg _
  rcases Nat.lt_or_ge (n % 100) 49 with hA | hBC
  · -- rising interior: the next value stays strictly below the top
    have hq48 : ((n % 100 : ℕ) : ℚ) ≤ 48 := by
      exact_mod_cast (show (n % 100 : ℕ) ≤ 48 by omega)
    have ht : tri n = 2 * (n % 100) := by unfold tri; rw [if_pos (by omega)]
    have hd : triDir n = 1 := by unfold triDir; rw [if_pos (by omega)]
    have hmod : (n + 1) % 100 = n % 100 + 1 := by omega
    have ht1 : tri (n + 1) = 2 * (n % 100) + 2 := by
      unfold tri; rw [hmod, if_pos (by omega)]; ring
    have hd1 : triDir (n + 1) = 1 := by
      unfold triDir; rw [hmod, if_pos (by omega)]
    have hval : max 0 (min 100 ((tri n : ℚ) + (triDir n : ℚ) * 2)) =
        2 * ((n % 100 : ℕ) : ℚ) + 2 := by
      rw [ht, hd]
      push_cast
      rw [min_eq_right (by linarith), max_eq_right (by linarith)]
      ring
    refine ⟨by rw [hval, ht1]; push_cast; ring, ?_⟩
    rw [hval, hd1, hd, if_neg]
    rintro (h0 | h100) <;> linarith
  rcases Nat.lt_or_ge (n % 100) 50 with hA2 | hB
  · -- the tick that reaches the top: value 100, direction flips
    have h49 : n % 100 = 49 := by omega
    have ht : tri n = 98 := by unfold tri; rw [if_pos (by omega), h49]
    have hd : triDir n = 1 := by unfold triDir; rw [if_pos (by omega)]
    have hmod : (n + 1) % 100 = 50 := by omega
    have ht1 : tri (n + 1) = 100 := by
      unfold tri; rw [hmod, if_pos (by omega)]
    have hd1 : triDir (n + 1) = -1 := by
      unfold triDir; rw [hmod, if_neg (by omega)]
    have hval : max 0 (min 100 ((tri n : ℚ) + (triDir n : ℚ) * 2)) = 100 := by
      rw [ht, hd]; norm_num
    exact ⟨by rw [hval, ht1]; norm_num,
      by rw [hval, hd1, hd, if_pos (by norm_num)]⟩
  rcases Nat.lt_or_ge (n % 100) 99 with hB2 | hC
  · -- falling interior: the value keeps strictly between the bounds
    have hq50 : (50 : ℚ) ≤ ((n % 100 : ℕ) : ℚ) := by exact_mod_cast hB
    have hq98 : ((n % 100 : ℕ) : ℚ) ≤ 98 := by
      exact_mod_cast (show (n % 100 : ℕ) ≤ 98 by omega)
    have ht : tri n = 200 - 2 * (n % 100) := by
      unfold tri; split_ifs <;> omega
    have hd : triDir n = -1 := by unfold triDir; rw [if_neg (by omega)]
    have hmod : (n + 1) % 100 = n % 100 + 1 := by omega
    have ht1 : tri (n + 1) = 198 - 2 * (n % 100) := by
      unfold tri; rw [hmod, if_neg (by omega)]; omega
    have hd1 : triDir (n + 1) = -1 := by
      unfold triDir; rw [hmod, if_neg (by omega)]
    have htq : (tri n : ℚ) = 200 - 2 * ((n % 100 : ℕ) : ℚ) := by
      rw [ht, Nat.cast_sub (by omega)]; push_cast; ring
    have ht1q : (tri (n + 1) : ℚ) = 198 - 2 * ((n % 100 : ℕ) : ℚ) := by
      rw [ht1, Nat.cast_sub (by omega)]; push_cast; ring
    have hval : max 0 (min 100 ((tri n : ℚ) + (triDir n : ℚ) * 2)) =
        198 - 2 * ((n % 100 : ℕ) : ℚ) := by
      rw [htq, hd]
      push_cast
      rw [show (200 : ℚ) - 2 * ((n % 100 : ℕ) : ℚ) + -1 * 2 =
        198 - 2 * ((n % 100 : ℕ) : ℚ) by ring]
      rw [min_eq_right (by linarith), max_eq_right (by linarith)]
    refine ⟨by rw [hval, ht1q], ?_⟩
    rw [hval, hd1, hd, if_neg]
    rintro (h0 | h100) <;> linarith
  · -- the tick that reaches the bottom: value 0, direction flips back
    have h99 : n % 100 = 99 := by omega
    have ht : tri n = 2 := by unfold tri; rw [if_neg (by omega), h99]
    have hd : triDir n = -1 := by unfold triDir; rw [if_neg (by omega)]
    have hmod : (n + 1) % 100 = 0 := by omega
    have ht1 : tri (n + 1) = 0 := by
      unfold tri; rw [hmod, if_pos (by omega)]
    have hd1 : triDir (n + 1) = 1 := by
      unfold triDir; rw [hmod, if_pos (by omega)]
    have hval : max 0 (min 100 ((tri n : ℚ) + (triDir n : ℚ) * 2)) = 0 := by
      rw [ht, hd]; norm_num
    exact ⟨by rw [hval, ht1]; norm_num,
      by rw [hval, hd1, hd]; norm_num⟩

lemma amRun_triangle :
    ∀ (ticks : List ℚ) (s : AMState) (n : ℕ) (g : String),
    s.am_openness = (tri n : ℚ) → s.am_open_dir = triDir n →
    List.Chain' (fun a b => a + AM_FRAME_INTERVAL ≤ b)
      (s.am_last_update :: ticks) →
    (amRun s ticks g).am_openness = (tri (n + ticks.length) : ℚ) ∧
    (amRun s ticks g).am_open_dir = triDir (n + ticks.length) := by
  intro ticks
  induction ticks with
  | nil => intro s n g ho hd _; simpa [amRun] using ⟨ho, hd⟩
  | cons t ts ih =>
    intro s n g ho hd hch
    rw [List.chain'_cons] at hch
    obtain ⟨h1, hch2⟩ := hch
    have hgap : AM_FRAME_INTERVAL ≤ t - s.am_last_update := by linarith
    obtain ⟨hfo, hfd, hfl, _⟩ := am_tick_face s t g hgap
    have hstep := tri_step n
    have ho2 : (update_am_state s t true g).am_openness = (tri (n + 1) : ℚ) := by
      rw [hfo, ho, hd]; exact hstep.1.symm
    have hd2 : (update_am_state s t true g).am_open_dir = triDir (n + 1) := by
      rw [hfd, ho, hd]; exact hstep.2.symm
    have hch3 : List.Chain' (fun a b => a + AM_FRAME_INTERVAL ≤ b)
        ((update_am_state s t true g).am_last_update :: ts) := by
      rw [hfl]; exact hch2
    have hres := ih (update_am_state s t true g) (n + 1) g ho2 hd2 hch3
    have harith : n + 1 + ts.length = n + (t :: ts).length := by
      simp only [List.length_cons]; omega
    rw [harith] at hres
    exact hres

/-- Claim C3: the AM oscillator is wall-clock gated: a tick less than 40 ms
after the previous accepted tick changes nothing; an accepted tick with no
face forces openness to 0 without advancing direction or phase; an accepted
tick with a face adds twice the direction, clamps to the 0 to 100 band and
flips the direction exactly when the clamped value hits a bound; driven
from the fresh oscillator state with ticks spaced at least 40 ms apart and
a face present, the openness after n ticks is the triangle wave tri n,
which rises by 2 per tick for 50 ticks, falls by 2 per tick for the next
50, and has period exactly 100 ticks. -/
theorem C3_am_oscillator :
    (∀ (s : AMState) (now : ℚ) (detected : Bool) (g : String),
      now - s.am_last_update < AM_FRAME_INTERVAL →
      update_am_state s now detected g = s) ∧
    (∀ (s : AMState) (now : ℚ) (g : String),
      AM_FRAME_INTERVAL ≤ now - s.am_last_update →
      (update_am_state s now false g).am_openness = 0 ∧
      (update_am_state s now false g).am_open_dir = s.am_open_dir ∧
      (update_am_state s now false g).am_phase = s.am_phase ∧
      (update_am_state s now false g).am_last_update = now) ∧
    (∀ (s : AMState) (now : ℚ) (g : String),
      AM_FRAME_INTERVAL ≤ now - s.am_last_update →
      (update_am_state s now true g).am_openness =
        max 0 (min 100 (s.am_openness + (s.am_open_dir : ℚ) * 2)) ∧
      (update_am_state s now true g).am_open_dir =
        (if (update_am_state s now true g).am_openness = 0 ∨
            (update_am_state s now true g).am_openness = 100
         then -s.am_open_dir else s.am_open_dir)) ∧
    (∀ (s : AMState) (g : String) (ticks : List ℚ),
      s.am_openness = 0 → s.am_open_dir = 1 →
      List.Chain' (fun a b => a + AM_FRAME_INTERVAL ≤ b)
        (s.am_last_update :: ticks) →
      (amRun s ticks g).am_openness = (tri ticks.length : ℚ) ∧
      (amRun s ticks g).am_open_dir = triDir ticks.length) ∧
    (∀ n : ℕ, tri (n + 100) = tri n) ∧
    (∀ k : ℕ, k ≤ 50 → tri k = 2 * k) ∧
    (∀ k : ℕ, 50 ≤ k → k ≤ 100 → tri k = 200 - 2 * k) := by
  refine ⟨am_tick_skip, ?_, ?_, ?_, ?_, ?_, ?_⟩
  · intro s now g h
    obtain h2 := am_tick_noface s now g h
    rw [h2]
    exact ⟨rfl, rfl, rfl, rfl⟩
  · intro s now g h
    obtain ⟨hfo, hfd, _, _⟩ := am_tick_face s now g h
    refine ⟨hfo, ?_⟩
    rw [hfd, hfo]
  · intro s g ticks ho hd hch
    have h0 : s.am_openness = (tri 0 : ℚ) := by rw [ho]; norm_num [tri]
    have h1 : s.am_open_dir = triDir 0 := by rw [hd]; norm_num [triDir]
    have := amRun_triangle ticks s 0 g h0 h1 hch
    simpa using this
  · intro n
    unfold tri
    have h1 : (n + 100) % 100 = n % 100 := by omega
    rw [h1]
  · intro k hk
    unfold tri
    rcases Nat.lt_or_ge k 100 with h | h
    · rw [Nat.mod_eq_of_lt h, if_pos hk]
    · omega
  · intro k hk1 hk2
    unfold tri
    rcases Nat.lt_or_ge k 100 with h | h
    · rw [Nat.mod_eq_of_lt h]
      split_ifs with hle <;> omega
    · have : k = 100 := by omega
      subst this
      norm_num

/-- Claim C3 witness: a tick 10 ms after the last accepted one is ignored;
an accepted tick without a face zeroes the openness; an accepted tick with
a face applies the clamped step; two ticks spaced exactly 40 ms apart from
the fresh state raise the openness to tri 2 = 4; the wave has period 100
and the stated rising and falling shape. -/
theorem C3_am_oscillator_witness :
    update_am_state ⟨4, 1, 0, 0⟩ (1/100) true "CENTRO" = ⟨4, 1, 0, 0⟩ ∧
    (update_am_state ⟨4, 1, 0, 0⟩ (1/10) false "CENTRO").am_openness = 0 ∧
    (update_am_state ⟨4, 1, 0, 0⟩ (1/10) true "CENTRO").am_openness =
      max 0 (min 100 ((4 : ℚ) + ((1 : ℤ) : ℚ) * 2)) ∧
    (amRun ⟨0, 1, 0, 0⟩ [4/100, 8/100] "CENTRO").am_openness = (tri 2 : ℚ) ∧
    tri (7 + 100) = tri 7 ∧ tri 3 = 2 * 3 ∧ tri 60 = 200 - 2 * 60 := by
  have hskip : (1 : ℚ)/100 - (⟨4, 1, 0, 0⟩ : AMState).am_last_update <
      AM_FRAME_INTERVAL := by norm_num [AM_FRAME_INTERVAL]
  have hgap : AM_FRAME_INTERVAL ≤
      (1 : ℚ)/10 - (⟨4, 1, 0, 0⟩ : AMState).am_last_update := by
    norm_num [AM_FRAME_INTERVAL]
  have hch : List.Chain' (fun a b => a + AM_FRAME_INTERVAL ≤ b)
      ((⟨0, 1, 0, 0⟩ : AMState).am_last_update :: [4/100, 8/100]) := by
    simp only [List.chain'_cons, List.chain'_singleton, and_true]
    norm_num [AM_FRAME_INTERVAL]
  refine ⟨C3_am_oscillator.1 ⟨4, 1, 0, 0⟩ (1/100) true "CENTRO" hskip,
    (C3_am_oscillator.2.1 ⟨4, 1, 0, 0⟩ (1/10) "CENTRO" hgap).1,
    (C3_am_oscillator.2.2.1 ⟨4, 1, 0, 0⟩ (1/10) "CENTRO" hgap).1,
    ?_,
    C3_am_oscillator.2.2.2.2.1 7,
    C3_am_oscillator.2.2.2.2.2.1 3 (by norm_num),
    C3_am_oscillator.2.2.2.2.2.2 60 (by norm_num) (by norm_num)⟩
  exact (C3_am_oscillator.2.2.2.1 ⟨0, 1, 0, 0⟩ "CENTRO" [4/100, 8/100]
    rfl rfl hch).1

/-! ### Eyebrow elevation -/

lemma get_eyebrow_height_eq (eb ee : List Landmark) (s0 s1 : ℕ) :
    get_eyebrow_height eb ee s0 s1 =
      max 0 (min 1 ((browEyeDist eb ee s0 s1 - 20) / 40)) := rfl

lemma clamp_band_eq (d : ℚ) :
    max 0 (min 1 ((d - 20) / 40)) = max 0 (min 40 (d - 20)) / 40 := by
  rcases le_or_lt d 20 with h | h
  · rw [min_eq_right (by linarith), max_eq_left (by linarith),
      min_eq_right (by linarith), max_eq_left (by linarith)]
    norm_num
  rcases le_or_lt 60 d with h2 | h2
  · rw [min_eq_left (by linarith), max_eq_right (by linarith),
      min_eq_left (by linarith), max_eq_right (by linarith)]
    norm_num
  · rw [min_eq_right (by linarith), max_eq_right (by linarith),
      min_eq_right (by linarith), max_eq_right (by linarith)]

/-- Claim C4 (amended): the eyebrow elevation equals
clamp(abs(mean(eyebrow_y) - mean(eye_y)) - 20, 0, 40) / 40, with the
absolute raw pixel distance where the claim wrote the signed difference;
that value is monotone non-decreasing in the distance, is 0 for distance
at most 20 pixels, and is 1 for distance at least 60 pixels. -/
theorem C4_eyebrow_elevation :
    (∀ (eb ee : List Landmark) (s0 s1 : ℕ),
      get_eyebrow_height eb ee s0 s1 =
        max 0 (min 40 (browEyeDist eb ee s0 s1 - 20)) / 40) ∧
    (∀ d1 d2 : ℚ, d1 ≤ d2 →
      max 0 (min 1 ((d1 - 20) / 40)) ≤ max 0 (min 1 ((d2 - 20) / 40))) ∧
    (∀ (eb ee : List Landmark) (s0 s1 : ℕ),
      browEyeDist eb ee s0 s1 ≤ 20 → get_eyebrow_height eb ee s0 s1 = 0) ∧
    (∀ (eb ee : List Landmark) (s0 s1 : ℕ),
      60 ≤ browEyeDist eb ee s0 s1 → get_eyebrow_height eb ee s0 s1 = 1) := by
  refine ⟨?_, ?_, ?_, ?_⟩
  · intro eb ee s0 s1
    rw [get_eyebrow_height_eq, clamp_band_eq]
  · intro d1 d2 h
    exact max_le_max le_rfl (min_le_min le_rfl (by linarith))
  · intro eb ee s0 s1 h
    rw [get_eyebrow_height_eq,
      min_eq_right (by linarith), max_eq_left (by linarith)]
  · intro eb ee s0 s1 h
    rw [get_eyebrow_height_eq,
      min_eq_left (by linarith), max_eq_right (by linarith)]

/-- Claim C4 witness: a single eyebrow point 20 pixels high and a single
eye point 60 pixels high give elevation one half, the monotone step, and
both saturation bands at concrete distances. -/
theorem C4_eyebrow_elevation_witness :
    get_eyebrow_height [⟨0, 2/10⟩] [⟨0, 6/10⟩] 100 100 =
      max 0 (min 40 (browEyeDist [⟨0, 2/10⟩] [⟨0, 6/10⟩] 100 100 - 20)) / 40 ∧
    max 0 (min 1 (((25 : ℚ) - 20) / 40)) ≤ max 0 (min 1 (((35 : ℚ) - 20) / 40)) ∧
    get_eyebrow_height [⟨0, 2/10⟩] [⟨0, 3/10⟩] 100 100 = 0 ∧
    get_eyebrow_height [⟨0, 1/10⟩] [⟨0, 8/10⟩] 100 100 = 1 := by
  refine ⟨C4_eyebrow_elevation.1 _ _ _ _,
    C4_eyebrow_elevation.2.1 25 35 (by norm_num),
    C4_eyebrow_elevation.2.2.1 _ _ _ _ ?_,
    C4_eyebrow_elevation.2.2.2 _ _ _ _ ?_⟩
  · norm_num [browEyeDist, to_pixel, pyInt]
  · norm_num [browEyeDist, to_pixel, pyInt]

/-- Claim C4 counterexample: with the eyebrow 40 pixels above the eye (in
image coordinates the eyebrow has the smaller y), the code gives elevation
one half while the claim formula without the absolute value clamps the
negative difference to 0. -/
theorem C4_counterexample :
    get_eyebrow_height [⟨0, 2/10⟩] [⟨0, 6/10⟩] 100 100 = 1/2 ∧
    eyebrow_elevation_claim [⟨0, 2/10⟩] [⟨0, 6/10⟩] 100 100 = 0 := by
  constructor
  · norm_num [get_eyebrow_height, to_pixel, pyInt]
  · norm_num [eyebrow_elevation_claim, to_pixel, pyInt]

/-! ### Eye aspect ratio and guarded divisions -/

lemma sqDist_nonneg (p q : ℤ × ℤ) : 0 ≤ sqDist p q := by
  unfold sqDist
  positivity

lemma euclid_nonneg (p q : ℤ × ℤ) : 0 ≤ euclid p q :=
  Real.sqrt_nonneg _

lemma euclid_eq_zero_iff (p q : ℤ × ℤ) : euclid p q = 0 ↔ sqDist p q = 0 := by
  unfold euclid
  rw [Real.sqrt_eq_zero (by exact_mod_cast sqDist_nonneg p q)]
  exact_mod_cast Iff.rfl

lemma sqDist_pos_of_fst_ne (p q : ℤ × ℤ) (h : p.1 ≠ q.1) :
    sqDist p q ≠ 0 := by
  unfold sqDist
  have h1 : 0 < (p.1 - q.1) ^ 2 := by
    have : p.1 - q.1 ≠ 0 := sub_ne_zero.mpr h
    positivity
  have h2 : 0 ≤ (p.2 - q.2) ^ 2 := sq_nonneg _
  omega

/-- Claim C9: for a 6-point ordered eye contour whose two horizontal points
do not coincide in their truncated pixel x coordinate, the computed EAR is
exactly (dist(p1,p5) + dist(p2,p4)) / (2 dist(p0,p3)) on the truncated
pixel points, and this value is nonnegative. -/
theorem C9_ear_formula :
    ∀ (p0 p1 p2 p3 p4 p5 : Landmark) (rest : List Landmark) (s0 s1 : ℕ),
    (to_pixel s0 s1 p0).1 ≠ (to_pixel s0 s1 p3).1 →
    calculate_eye_aspect (p0 :: p1 :: p2 :: p3 :: p4 :: p5 :: rest) s0 s1 =
      some ((euclid (to_pixel s0 s1 p1) (to_pixel s0 s1 p5) +
          euclid (to_pixel s0 s1 p2) (to_pixel s0 s1 p4)) /
        (2 * euclid (to_pixel s0 s1 p0) (to_pixel s0 s1 p3))) ∧
    0 ≤ (euclid (to_pixel s0 s1 p1) (to_pixel s0 s1 p5) +
          euclid (to_pixel s0 s1 p2) (to_pixel s0 s1 p4)) /
        (2 * euclid (to_pixel s0 s1 p0) (to_pixel s0 s1 p3)) := by
  intro p0 p1 p2 p3 p4 p5 rest s0 s1 hne
  have hsq := sqDist_pos_of_fst_ne (to_pixel s0 s1 p0) (to_pixel s0 s1 p3) hne
  constructor
  · simp only [calculate_eye_aspect]
    rw [if_neg hsq]
  · apply div_nonneg
    · exact add_nonneg (euclid_nonneg _ _) (euclid_nonneg _ _)
    · have := euclid_nonneg (to_pixel s0 s1 p0) (to_pixel s0 s1 p3)
      linarith

/-- Claim C9 witness: a concrete contour with horizontal span from pixel
(0,0) to pixel (3,4) satisfies both parts of the formula theorem. -/
theorem C9_ear_formula_witness :
    calculate_eye_aspect [⟨0, 0⟩, ⟨1/100, 1/100⟩, ⟨2/100, 2/100⟩,
        ⟨3/100, 4/100⟩, ⟨2/100, 2/100⟩, ⟨1/100, 1/100⟩] 100 100 =
      some ((euclid (to_pixel 100 100 ⟨1/100, 1/100⟩)
            (to_pixel 100 100 ⟨1/100, 1/100⟩) +
          euclid (to_pixel 100 100 ⟨2/100, 2/100⟩)
            (to_pixel 100 100 ⟨2/100, 2/100⟩)) /
        (2 * euclid (to_pixel 100 100 ⟨0, 0⟩)
          (to_pixel 100 100 ⟨3/100, 4/100⟩))) ∧
    0 ≤ (euclid (to_pixel 100 100 ⟨1/100, 1/100⟩)
            (to_pixel 100 100 ⟨1/100, 1/100⟩) +
          euclid (to_pixel 100 100 ⟨2/100, 2/100⟩)
            (to_pixel 100 100 ⟨2/100, 2/100⟩)) /
        (2 * euclid (to_pixel 100 100 ⟨0, 0⟩)
          (to_pixel 100 100 ⟨3/100, 4/100⟩)) :=
  C9_ear_formula ⟨0, 0⟩ ⟨1/100, 1/100⟩ ⟨2/100, 2/100⟩ ⟨3/100, 4/100⟩
    ⟨2/100, 2/100⟩ ⟨1/100, 1/100⟩ [] 100 100
    (by norm_num [to_pixel, pyInt])

/-- Claim C5 (amended): the fps ratio written by stop_recording is guarded
(total frames over duration when the duration is positive, the default 30
otherwise), but the EAR division is not guarded: exactly on the degenerate
6-point inputs whose two horizontal points coincide after pixel truncation
the denominator vanishes and the computation fails (the none result models
the Python division error); on every other 6-point input the division
succeeds. -/
theorem C5_division_guards :
    (∀ (n : ℕ) (d : ℚ), 0 < d → recording_fps n d = (n : ℚ) / d) ∧
    (∀ n : ℕ, recording_fps n 0 = 30) ∧
    (∀ (p0 p1 p2 p3 p4 p5 : Landmark) (rest : List Landmark) (s0 s1 : ℕ),
      sqDist (to_pixel s0 s1 p0) (to_pixel s0 s1 p3) = 0 →
      calculate_eye_aspect (p0 :: p1 :: p2 :: p3 :: p4 :: p5 :: rest)
        s0 s1 = none) ∧
    (∀ (p0 p1 p2 p3 p4 p5 : Landmark) (rest : List Landmark) (s0 s1 : ℕ),
      sqDist (to_pixel s0 s1 p0) (to_pixel s0 s1 p3) ≠ 0 →
      ∃ r : ℝ, calculate_eye_aspect (p0 :: p1 :: p2 :: p3 :: p4 :: p5 :: rest)
        s0 s1 = some r) := by
  refine ⟨?_, ?_, ?_, ?_⟩
  · intro n d h
    rw [recording_fps, if_pos h]
  · intro n
    rw [recording_fps, if_neg (by norm_num)]
  · intro p0 p1 p2 p3 p4 p5 rest s0 s1 h
    simp only [calculate_eye_aspect]
    rw [if_pos h]
  · intro p0 p1 p2 p3 p4 p5 rest s0 s1 h
    refine ⟨(euclid (to_pixel s0 s1 p1) (to_pixel s0 s1 p5) +
        euclid (to_pixel s0 s1 p2) (to_pixel s0 s1 p4)) /
      (2 * euclid (to_pixel s0 s1 p0) (to_pixel s0 s1 p3)), ?_⟩
    simp only [calculate_eye_aspect]
    rw [if_neg h]

/-- Claim C5 witness: the fps guard at a positive and at a zero duration,
the failing degenerate contour, and a successful non-degenerate one. -/
theorem C5_division_guards_witness :
    recording_fps 60 2 = (60 : ℚ) / 2 ∧
    recording_fps 60 0 = 30 ∧
    calculate_eye_aspect [⟨101/1000, 5/10⟩, ⟨2/10, 2/10⟩, ⟨3/10, 3/10⟩,
      ⟨109/1000, 5/10⟩, ⟨4/10, 4/10⟩, ⟨5/10, 5/10⟩] 100 100 = none ∧
    (∃ r : ℝ, calculate_eye_aspect [⟨0, 0⟩, ⟨2/10, 2/10⟩, ⟨3/10, 3/10⟩,
      ⟨3/100, 4/100⟩, ⟨4/10, 4/10⟩, ⟨5/10, 5/10⟩] 100 100 = some r) := by
  refine ⟨C5_division_guards.1 60 2 (by norm_num),
    C5_division_guards.2.1 60,
    C5_division_guards.2.2.1 _ _ _ _ _ _ [] 100 100 ?_,
    C5_division_guards.2.2.2 _ _ _ _ _ _ [] 100 100 ?_⟩
  · norm_num [sqDist, to_pixel, pyInt]
  · norm_num [sqDist, to_pixel, pyInt]

/-- Claim C5 counterexample: an admissible 6-point contour whose two
horizontal landmarks truncate to the same pixel (10, 50) makes the EAR
denominator zero, so the division is reached unguarded and fails; the
claim that the EAR computation never divides by zero is therefore false. -/
theorem C5_counterexample :
    calculate_eye_aspect [⟨101/1000, 5/10⟩, ⟨2/10, 2/10⟩, ⟨3/10, 3/10⟩,
      ⟨109/1000, 5/10⟩, ⟨4/10, 4/10⟩, ⟨5/10, 5/10⟩] 100 100 = none ∧
    to_pixel 100 100 ⟨101/1000, 5/10⟩ = to_pixel 100 100 ⟨109/1000, 5/10⟩ := by
  constructor
  · have h : sqDist (to_pixel 100 100 ⟨101/1000, 5/10⟩)
        (to_pixel 100 100 ⟨109/1000, 5/10⟩) = 0 := by
      norm_num [sqDist, to_pixel, pyInt]
    simp only [calculate_eye_aspect]
    rw [if_pos h]
  · norm_num [to_pixel, pyInt]

/-! ### The session recorder -/

lemma capture_not_recording (s : RecorderState) (now : ℚ)
    (h : s.is_recording = false) :
    capture_frame_for_recording s now = s := by
  unfold capture_frame_for_recording
  rw [if_pos h]

lemma capture_skip (s : RecorderState) (now : ℚ)
    (hrec : s.is_recording = true)
    (h60 : now - s.recording_start_time ≤ max_recording_time)
    (hint : now - s.last_frame_time < frame_interval) :
    capture_frame_for_recording s now = s := by
  unfold capture_frame_for_recording
  rw [if_neg (by simp [hrec]), if_neg (not_lt.mpr h60),
    if_neg (not_le.mpr hint)]

lemma capture_accept (s : RecorderState) (now : ℚ)
    (hrec : s.is_recording = true)
    (h60 : now - s.recording_start_time ≤ max_recording_time)
    (hint : frame_interval ≤ now - s.last_frame_time) :
    capture_frame_for_recording s now =
      { s with animation_frames := s.animation_frames ++ [now - s.recording_start_time], video_frames := s.video_frames + 1, last_frame_time := now } := by
  unfold capture_frame_for_recording
  rw [if_neg (by simp [hrec]), if_neg (not_lt.mpr h60), if_pos hint]

lemma capture_timeout (s : RecorderState) (now : ℚ)
    (hrec : s.is_recording = true)
    (h60 : max_recording_time < now - s.recording_start_time) :
    capture_frame_for_recording s now =
      { s with is_recording := false, video_frames := 0, flushes := s.flushes + 1 } := by
  unfold capture_frame_for_recording stop_recording
  rw [if_neg (by simp [hrec]), if_pos h60, if_pos hrec]

lemma capture_le60_preserves (s : RecorderState) (now : ℚ)
    (h60 : now - s.recording_start_time ≤ max_recording_time) :
    (capture_frame_for_recording s now).is_recording = s.is_recording ∧
    (capture_frame_for_recording s now).recording_start_time =
      s.recording_start_time ∧
    (capture_frame_for_recording s now).flushes = s.flushes := by
  unfold capture_frame_for_recording stop_recording
  split_ifs with h1 h2 h3 <;> try exact ⟨rfl, rfl, rfl⟩
  all_goals exact absurd h2 (not_lt.mpr h60)

lemma captureRun_not_recording :
    ∀ (ts : List ℚ) (s : RecorderState), s.is_recording = false →
    captureRun s ts = s := by
  intro ts
  induction ts with
  | nil => intro s _; rfl
  | cons t ts ih =>
    intro s h
    show captureRun (capture_frame_for_recording s t) ts = s
    rw [capture_not_recording s t h]
    exact ih s h

lemma spacingInv_capture (s : RecorderState) (now : ℚ)
    (hinv : SpacingInv s) :
    SpacingInv (capture_frame_for_recording s now) := by
  by_cases hrec : s.is_recording = true
  · by_cases h60 : now - s.recording_start_time ≤ max_recording_time
    · by_cases hint : frame_interval ≤ now - s.last_frame_time
      · rw [capture_accept s now hrec h60 hint]
        obtain ⟨hch, hlast⟩ := hinv
        constructor
        · rw [List.chain'_append]
          refine ⟨hch, List.chain'_singleton _, ?_⟩
          intro x hx y hy
          simp only [List.head?_cons, Option.mem_def, Option.some.injEq] at hy
          subst hy
          have hx2 := hlast x hx
          linarith
        · intro t ht
          simp only at ht
          rw [List.getLast?_concat] at ht
          injection ht with ht
          subst ht
          exact le_refl _
      · rw [capture_skip s now hrec h60 (not_le.mp hint)]
        exact hinv
    · rw [capture_timeout s now hrec (not_le.mp h60)]
      exact hinv
  · rw [capture_not_recording s now (by simpa using hrec)]
    exact hinv

lemma spacingInv_captureRun :
    ∀ (ts : List ℚ) (s : RecorderState), SpacingInv s →
    SpacingInv (captureRun s ts) := by
  intro ts
  induction ts with
  | nil => intro s h; exact h
  | cons t ts ih =>
    intro s h
    exact ih _ (spacingInv_capture s t h)

lemma captureRun_pre :
    ∀ (pre : List ℚ) (s : RecorderState), s.is_recording = true →
    (∀ u ∈ pre, u - s.recording_start_time ≤ max_recording_time) →
    (captureRun s pre).is_recording = true ∧
    (captureRun s pre).recording_start_time = s.recording_start_time ∧
    (captureRun s pre).flushes = s.flushes := by
  intro pre
  induction pre with
  | nil => intro s h _; exact ⟨h, rfl, rfl⟩
  | cons u us ih =>
    intro s h hmem
    have hu := hmem u (List.mem_cons_self u us)
    have hpres := capture_le60_preserves s u hu
    have hrest : ∀ v ∈ us,
        v - (capture_frame_for_recording s u).recording_start_time ≤
          max_recording_time := by
      intro v hv
      rw [hpres.2.1]
      exact hmem v (List.mem_cons_of_mem u hv)
    have := ih (capture_frame_for_recording s u)
      (by rw [hpres.1]; exact h) hrest
    refine ⟨this.1, ?_, ?_⟩
    · show (captureRun (capture_frame_for_recording s u) us).recording_start_time = s.recording_start_time
      rw [this.2.1, hpres.2.1]
    · show (captureRun (capture_frame_for_recording s u) us).flushes = s.flushes
      rw [this.2.2, hpres.2.2]

/-- Claim C6: while inactive a capture call does nothing; while active and
within the time limit, a call less than one thirtieth of a second after the
last accepted capture changes nothing, and a call at or past that interval
appends exactly one log entry (stamped with the elapsed time) and one video
frame and resets the capture clock, so that any session started by
start_recording has consecutive log timestamps at least one thirtieth of a
second apart; and in any call sequence that first exceeds the 60 second
limit at some call, the session stops and flushes exactly once there and
every later call does nothing. -/
theorem C6_recorder :
    (∀ (s : RecorderState) (now : ℚ), s.is_recording = false →
      capture_frame_for_recording s now = s) ∧
    (∀ (s : RecorderState) (now : ℚ), s.is_recording = true →
      now - s.recording_start_time ≤ max_recording_time →
      now - s.last_frame_time < frame_interval →
      capture_frame_for_recording s now = s) ∧
    (∀ (s : RecorderState) (now : ℚ), s.is_recording = true →
      now - s.recording_start_time ≤ max_recording_time →
      frame_interval ≤ now - s.last_frame_time →
      (capture_frame_for_recording s now).animation_frames =
        s.animation_frames ++ [now - s.recording_start_time] ∧
      (capture_frame_for_recording s now).video_frames =
        s.video_frames + 1 ∧
      (capture_frame_for_recording s now).last_frame_time = now) ∧
    (∀ (s0 : RecorderState) (t0 : ℚ) (ts : List ℚ),
      s0.is_recording = false →
      List.Chain' (fun a b => a + frame_interval ≤ b)
        (captureRun (start_recording s0 t0) ts).animation_frames) ∧
    (∀ (s : RecorderState) (pre : List ℚ) (t : ℚ) (post : List ℚ),
      s.is_recording = true →
      (∀ u ∈ pre, u - s.recording_start_time ≤ max_recording_time) →
      max_recording_time < t - s.recording_start_time →
      (captureRun s (pre ++ t :: post)).is_recording = false ∧
      (captureRun s (pre ++ t :: post)).flushes = s.flushes + 1) := by
  refine ⟨capture_not_recording, capture_skip, ?_, ?_, ?_⟩
  · intro s now hrec h60 hint
    rw [capture_accept s now hrec h60 hint]
    exact ⟨rfl, rfl, rfl⟩
  · intro s0 t0 ts h
    have hstart : SpacingInv (start_recording s0 t0) := by
      unfold start_recording SpacingInv
      rw [if_neg (by simp [h])]
      exact ⟨List.chain'_nil, by intro t ht; simp at ht⟩
    exact (spacingInv_captureRun ts _ hstart).1
  · intro s pre t post hrec hpre h60
    have hfold := captureRun_pre pre s hrec hpre
    have hstep : capture_frame_for_recording (captureRun s pre) t =
        { captureRun s pre with is_recording := false, video_frames := 0, flushes := (captureRun s pre).flushes + 1 } := by
      apply capture_timeout _ _ hfold.1
      rw [hfold.2.1]
      exact h60
    have hsplit : captureRun s (pre ++ t :: post) =
        captureRun (capture_frame_for_recording (captureRun s pre) t)
          post := by
      unfold captureRun
      rw [List.foldl_append, List.foldl_cons]
    rw [hsplit, hstep]
    rw [captureRun_not_recording post _ rfl]
    exact ⟨rfl, by simp [hfold.2.2]⟩

/-- Claim C6 witness: a fresh session started at time 0; a call at 1/100
second is skipped; a call at 1/10 second is captured; two captures from a
started session respect the spacing chain; and a sequence whose second call
passes the 60 second limit stops and flushes exactly once. -/
theorem C6_recorder_witness :
    capture_frame_for_recording ⟨false, 0, 0, [], 0, 0⟩ 5 =
      ⟨false, 0, 0, [], 0, 0⟩ ∧
    capture_frame_for_recording ⟨true, 0, 0, [], 0, 0⟩ (1/100) =
      ⟨true, 0, 0, [], 0, 0⟩ ∧
    ((capture_frame_for_recording ⟨true, 0, 0, [], 0, 0⟩
        (1/10)).animation_frames = [] ++ [(1/10 : ℚ) - 0] ∧
      (capture_frame_for_recording ⟨true, 0, 0, [], 0, 0⟩
        (1/10)).video_frames = 0 + 1 ∧
      (capture_frame_for_recording ⟨true, 0, 0, [], 0, 0⟩
        (1/10)).last_frame_time = 1/10) ∧
    List.Chain' (fun a b => a + frame_interval ≤ b)
      (captureRun (start_recording ⟨false, 0, 0, [], 0, 0⟩ 0)
        [1/10, 2/10]).animation_frames ∧
    ((captureRun ⟨true, 0, 0, [], 0, 0⟩ ([1/10] ++ 61 :: [62])).is_recording
        = false ∧
      (captureRun ⟨true, 0, 0, [], 0, 0⟩ ([1/10] ++ 61 :: [62])).flushes
        = 0 + 1) := by
  refine ⟨C6_recorder.1 _ 5 rfl,
    C6_recorder.2.1 _ (1/100) rfl (by norm_num [max_recording_time])
      (by norm_num [frame_interval]),
    C6_recorder.2.2.1 _ (1/10) rfl (by norm_num [max_recording_time])
      (by norm_num [frame_interval]),
    C6_recorder.2.2.2.1 _ 0 [1/10, 2/10] rfl,
    C6_recorder.2.2.2.2 _ [1/10] 61 [62] rfl ?_
      (by norm_num [max_recording_time])⟩
  intro u hu
  simp only [List.mem_cons, List.not_mem_nil, or_false] at hu
  subst hu
  norm_num [max_recording_time]

/-! ### The gaze estimator -/

lemma charsStartWith_append (p rest : List Char) :
    charsStartWith p (p ++ rest) = true := by
  induction p with
  | nil => rfl
  | cons c cs ih =>
    simp only [List.cons_append, charsStartWith, beq_self_eq_true,
      Bool.true_and]
    exact ih

lemma charsContain_append (c : Char) (cs rest : List Char) :
    charsContain (c :: cs) ((c :: cs) ++ rest) = true := by
  have h := charsStartWith_append (c :: cs) rest
  simp only [List.cons_append] at h
  simp only [List.cons_append, charsContain, List.append_eq, h,
    Bool.true_or]

lemma strContains_left_label (sfx : String) :
    strContains ("IZQUIERDA" ++ sfx) "IZQUIERDA" = true := by
  unfold strContains
  rw [String.data_append]
  exact charsContain_append _ _ _

lemma gaze_history_step (h : List (ℚ × ℚ)) (lc rc : ℤ × ℤ) (s0 s1 : ℕ) :
    (detect_eye_movement h lc rc s0 s1).history =
      (if history_size < (h ++ [gaze_midpoint lc rc s0 s1]).length
       then (h ++ [gaze_midpoint lc rc s0 s1]).drop 1
       else h ++ [gaze_midpoint lc rc s0 s1]) := rfl

lemma gaze_three_calls (h : List (ℚ × ℚ)) (lc rc : ℤ × ℤ) (s0 s1 : ℕ)
    (hlen : h.length ≤ 3) :
    (gazeRun h lc rc s0 s1 2).history =
      [gaze_midpoint lc rc s0 s1, gaze_midpoint lc rc s0 s1,
        gaze_midpoint lc rc s0 s1] := by
  match h, hlen with
  | [], _ =>
    simp [gazeRun, gaze_history_step, history_size]
  | [a], _ =>
    simp [gazeRun, gaze_history_step, history_size]
  | [a, b], _ =>
    simp [gazeRun, gaze_history_step, history_size]
  | [a, b, c], _ =>
    simp [gazeRun, gaze_history_step, history_size]

/-- Claim C7: each call pushes the normalized midpoint at the end of the
history and evicts the oldest entry exactly when the window would exceed 3,
so the window never exceeds 3 entries; the reported position is the
arithmetic mean of the current window; the direction label is the
horizontal component by the 0.42 and 0.58 thresholds followed by the
vertical component (vertical CENTER appending nothing); and a constant
horizontal midpoint of 0.30 held for 3 samples yields a label containing
IZQUIERDA (LEFT). -/
theorem C7_gaze_estimator :
    (∀ (h : List (ℚ × ℚ)) (lc rc : ℤ × ℤ) (s0 s1 : ℕ),
      (detect_eye_movement h lc rc s0 s1).history =
        (if history_size < (h ++ [gaze_midpoint lc rc s0 s1]).length
         then (h ++ [gaze_midpoint lc rc s0 s1]).drop 1
         else h ++ [gaze_midpoint lc rc s0 s1]) ∧
      (h.length ≤ history_size →
        (detect_eye_movement h lc rc s0 s1).history.length ≤ history_size)) ∧
    (∀ (h : List (ℚ × ℚ)) (lc rc : ℤ × ℤ) (s0 s1 : ℕ),
      (detect_eye_movement h lc rc s0 s1).position =
        (((detect_eye_movement h lc rc s0 s1).history.map
            (fun p => p.1)).sum /
          ((detect_eye_movement h lc rc s0 s1).history.length : ℚ),
         ((detect_eye_movement h lc rc s0 s1).history.map
            (fun p => p.2)).sum /
          ((detect_eye_movement h lc rc s0 s1).history.length : ℚ))) ∧
    (∀ (h : List (ℚ × ℚ)) (lc rc : ℤ × ℤ) (s0 s1 : ℕ),
      (detect_eye_movement h lc rc s0 s1).direction =
        horizLabel (detect_eye_movement h lc rc s0 s1).position.1 ++
          vertSuffix (detect_eye_movement h lc rc s0 s1).position.2) ∧
    (∀ (h : List (ℚ × ℚ)) (lc rc : ℤ × ℤ) (s0 s1 : ℕ),
      h.length ≤ history_size →
      (gaze_midpoint lc rc s0 s1).1 = 3/10 →
      strContains (gazeRun h lc rc s0 s1 2).direction "IZQUIERDA" = true) := by
  have hpos : ∀ (h : List (ℚ × ℚ)) (lc rc : ℤ × ℤ) (s0 s1 : ℕ),
      (detect_eye_movement h lc rc s0 s1).position =
        (((detect_eye_movement h lc rc s0 s1).history.map
            (fun p => p.1)).sum /
          ((detect_eye_movement h lc rc s0 s1).history.length : ℚ),
         ((detect_eye_movement h lc rc s0 s1).history.map
            (fun p => p.2)).sum /
          ((detect_eye_movement h lc rc s0 s1).history.length : ℚ)) := by
    intro h lc rc s0 s1
    rfl
  have hdir : ∀ (h : List (ℚ × ℚ)) (lc rc : ℤ × ℤ) (s0 s1 : ℕ),
      (detect_eye_movement h lc rc s0 s1).direction =
        horizLabel (detect_eye_movement h lc rc s0 s1).position.1 ++
          vertSuffix (detect_eye_movement h lc rc s0 s1).position.2 := by
    intro h lc rc s0 s1
    simp only [detect_eye_movement, horizLabel, vertSuffix]
    split_ifs <;> simp
  refine ⟨?_, hpos, hdir, ?_⟩
  · intro h lc rc s0 s1
    refine ⟨rfl, ?_⟩
    intro hlen
    rw [gaze_history_step]
    split_ifs with hfull
    · simp only [List.length_drop, List.length_append,
        List.length_singleton]
      omega
    · simp only [List.length_append, List.length_singleton] at hfull ⊢
      omega
  · intro h lc rc s0 s1 hlen hx
    have hh := gaze_three_calls h lc rc s0 s1 hlen
    have hrun : gazeRun h lc rc s0 s1 2 =
        detect_eye_movement
          (gazeRun h lc rc s0 s1 1).history lc rc s0 s1 := rfl
    have hmean : (gazeRun h lc rc s0 s1 2).position.1 = 3/10 := by
      rw [hrun] at hh ⊢
      rw [hpos, hh]
      simp only [List.map_cons, List.map_nil, List.sum_cons, List.sum_nil,
        List.length_cons, List.length_nil]
      rw [hx]
      norm_num
    rw [hrun] at hmean ⊢
    rw [hdir, hmean]
    unfold horizLabel
    rw [if_pos (by norm_num)]
    exact strContains_left_label _

/-- Claim C7 witness: with both eye centers at pixel (30, 50) in a 100 by
100 frame the normalized midpoint is (0.30, 0.50); one call from the empty
history obeys the FIFO, mean and label equations, and three calls produce
a direction label containing IZQUIERDA. -/
theorem C7_gaze_estimator_witness :
    ((detect_eye_movement [] (30, 50) (30, 50) 100 100).history =
      (if history_size <
          ([] ++ [gaze_midpoint (30, 50) (30, 50) 100 100]).length
       then ([] ++ [gaze_midpoint (30, 50) (30, 50) 100 100]).drop 1
       else [] ++ [gaze_midpoint (30, 50) (30, 50) 100 100]) ∧
      ([] : List (ℚ × ℚ)).length ≤ history_size →
        (detect_eye_movement [] (30, 50) (30, 50) 100 100).history.length ≤
          history_size) ∧
    (detect_eye_movement [] (30, 50) (30, 50) 100 100).direction =
      horizLabel (detect_eye_movement [] (30, 50) (30, 50) 100 100).position.1
        ++ vertSuffix
          (detect_eye_movement [] (30, 50) (30, 50) 100 100).position.2 ∧
    strContains (gazeRun [] (30, 50) (30, 50) 100 100 2).direction
      "IZQUIERDA" = true := by
  refine ⟨?_, C7_gaze_estimator.2.2.1 [] (30, 50) (30, 50) 100 100, ?_⟩
  · intro _
    exact ((C7_gaze_estimator.1 [] (30, 50) (30, 50) 100 100).2 (by simp))
  · exact C7_gaze_estimator.2.2.2 [] (30, 50) (30, 50) 100 100 (by simp)
      (by norm_num [gaze_midpoint])

/-! ### Render box heights -/

lemma base_eye_height_bounds (ear : ℚ) :
    8 ≤ base_eye_height ear ∧ base_eye_height ear ≤ 100 := by
  unfold base_eye_height
  constructor
  · exact le_max_left _ _
  · rw [max_le_iff]
    exact ⟨by norm_num, min_le_left _ _⟩

/-- Claim C8 (amended): in the rectangle render modes each box has fixed
width 80 px and base height max(8, min(100, int(EAR / 0.35 * 100))), the
truncation by int() included; when the renderer sees the both-closed state
both heights are integer-halved, on a left (right) wink only that eye is
integer-halved, and with clean sticky flags and both eyes open (or a
one-sided closure still under the debounce) both heights keep their base
values. -/
theorem C8_render_heights :
    (∀ (s : TrackerState) (l r : ℚ),
      (draw_heights s l r).2.1.1 = 80 ∧ (draw_heights s l r).2.2.1 = 80) ∧
    (∀ ear : ℚ, base_eye_height ear =
      max 8 (min 100 (pyInt (ear / (35/100) * 100))) ∧
      8 ≤ base_eye_height ear ∧ base_eye_height ear ≤ 100) ∧
    (∀ (s : TrackerState) (l r : ℚ), l < wink_threshold →
      r < wink_threshold →
      (draw_heights s l r).2.1.2 = base_eye_height l / 2 ∧
      (draw_heights s l r).2.2.2 = base_eye_height r / 2) ∧
    (∀ (s : TrackerState) (l r : ℚ), l < wink_threshold →
      ¬ r < wink_threshold → 2 ≤ s.left_wink_counter + 1 →
      (draw_heights s l r).2.1.2 = base_eye_height l / 2 ∧
      (draw_heights s l r).2.2.2 = base_eye_height r) ∧
    (∀ (s : TrackerState) (l r : ℚ), ¬ l < wink_threshold →
      r < wink_threshold → 2 ≤ s.right_wink_counter + 1 →
      (draw_heights s l r).2.1.2 = base_eye_height l ∧
      (draw_heights s l r).2.2.2 = base_eye_height r / 2) ∧
    (∀ (s : TrackerState) (l r : ℚ), ¬ l < wink_threshold →
      ¬ r < wink_threshold →
      (draw_heights s l r).2.1.2 = base_eye_height l ∧
      (draw_heights s l r).2.2.2 = base_eye_height r) ∧
    (∀ (s : TrackerState) (l r : ℚ), s.both_eyes_closed = false →
      s.left_winking = false → s.right_winking = false →
      l < wink_threshold → ¬ r < wink_threshold →
      ¬ 2 ≤ s.left_wink_counter + 1 →
      (draw_heights s l r).2.1.2 = base_eye_height l ∧
      (draw_heights s l r).2.2.2 = base_eye_height r) ∧
    (∀ (s : TrackerState) (l r : ℚ), s.both_eyes_closed = false →
      s.left_winking = false → s.right_winking = false →
      ¬ l < wink_threshold → r < wink_threshold →
      ¬ 2 ≤ s.right_wink_counter + 1 →
      (draw_heights s l r).2.1.2 = base_eye_height l ∧
      (draw_heights s l r).2.2.2 = base_eye_height r) := by
  refine ⟨?_, ?_, ?_, ?_, ?_, ?_, ?_, ?_⟩
  · intro s l r
    simp only [draw_heights]
    split_ifs <;> exact ⟨rfl, rfl⟩
  · intro ear
    exact ⟨rfl, base_eye_height_bounds ear⟩
  · intro s l r hl hr
    have hd := detect_both_closed s l r hl hr
    simp [draw_heights, hd]
  · intro s l r hl hr h2
    have hd := detect_left_only s l r hl hr
    rw [if_pos h2] at hd
    simp [draw_heights, hd]
  · intro s l r hl hr h2
    have hd := detect_right_only s l r hl hr
    rw [if_pos h2] at hd
    simp [draw_heights, hd]
  · intro s l r hl hr
    have hd := detect_both_open s l r hl hr
    simp [draw_heights, hd]
  · intro s l r hb hlw hrw hl hr h2
    have hd := detect_left_only s l r hl hr
    rw [if_neg h2] at hd
    simp [draw_heights, hd, hb, hlw, hrw]
  · intro s l r hb hlw hrw hl hr h2
    have hd := detect_right_only s l r hl hr
    rw [if_neg h2] at hd
    simp [draw_heights, hd, hb, hlw, hrw]

/-- Claim C8 witness: the eight parts of the height theorem at concrete
EAR values, covering both closed, each wink after the debounce, both open
and the clean under-debounce case on either side. -/
theorem C8_render_heights_witness :
    ((draw_heights initState (3/10) (3/10)).2.1.1 = 80 ∧
      (draw_heights initState (3/10) (3/10)).2.2.1 = 80) ∧
    base_eye_height (3/10) =
      max 8 (min 100 (pyInt ((3/10) / (35/100) * 100))) ∧
    ((draw_heights initState (1/10) (1/10)).2.1.2 =
        base_eye_height (1/10) / 2 ∧
      (draw_heights initState (1/10) (1/10)).2.2.2 =
        base_eye_height (1/10) / 2) ∧
    ((draw_heights ⟨0, 0, 0, 0, 1, 0, false, false, false⟩
        (1/10) (3/10)).2.1.2 = base_eye_height (1/10) / 2 ∧
      (draw_heights ⟨0, 0, 0, 0, 1, 0, false, false, false⟩
        (1/10) (3/10)).2.2.2 = base_eye_height (3/10)) ∧
    ((draw_heights ⟨0, 0, 0, 0, 0, 1, false, false, false⟩
        (3/10) (1/10)).2.1.2 = base_eye_height (3/10) ∧
      (draw_heights ⟨0, 0, 0, 0, 0, 1, false, false, false⟩
        (3/10) (1/10)).2.2.2 = base_eye_height (1/10) / 2) ∧
    ((draw_heights initState (3/10) (3/10)).2.1.2 =
        base_eye_height (3/10) ∧
      (draw_heights initState (3/10) (3/10)).2.2.2 =
        base_eye_height (3/10)) ∧
    ((draw_heights initState (1/10) (3/10)).2.1.2 =
        base_eye_height (1/10) ∧
      (draw_heights initState (1/10) (3/10)).2.2.2 =
        base_eye_height (3/10)) ∧
    ((draw_heights initState (3/10) (1/10)).2.1.2 =
        base_eye_height (3/10) ∧
      (draw_heights initState (3/10) (1/10)).2.2.2 =
        base_eye_height (1/10)) := by
  have hc : (1 : ℚ)/10 < wink_threshold := by norm_num [wink_threshold]
  have ho : ¬ (3 : ℚ)/10 < wink_threshold := by norm_num [wink_threshold]
  exact ⟨C8_render_heights.1 initState (3/10) (3/10),
    (C8_render_heights.2.1 (3/10)).1,
    C8_render_heights.2.2.1 initState (1/10) (1/10) hc hc,
    C8_render_heights.2.2.2.1 _ (1/10) (3/10) hc ho (by norm_num),
    C8_render_heights.2.2.2.2.1 _ (3/10) (1/10) ho hc (by norm_num),
    C8_render_heights.2.2.2.2.2.1 initState (3/10) (3/10) ho ho,
    C8_render_heights.2.2.2.2.2.2.1 initState (1/10) (3/10) rfl rfl rfl
      hc ho (by norm_num [initState]),
    C8_render_heights.2.2.2.2.2.2.2 initState (3/10) (1/10) rfl rfl rfl
      ho hc (by norm_num [initState])⟩

/-- Claim C8 counterexample: at EAR 0.30 the code box height is the
truncated 85 px, while the claim formula without integer truncation gives
600/7, so the claimed real-valued clamp does not describe the box height. -/
theorem C8_counterexample :
    (draw_heights initState (3/10) (3/10)).2.1.2 = 85 ∧
    max 8 (min 100 ((3/10 : ℚ) / (35/100) * 100)) ≠ 85 := by
  constructor
  · norm_num [draw_heights, detect_eye_state, wink_threshold, initState,
      base_eye_height, pyInt, consecutive_frames]
    simp
  · have h1 : (3/10 : ℚ) / (35/100) * 100 = 600/7 := by norm_num
    rw [h1]
    rw [min_eq_right (by norm_num), max_eq_right (by norm_num)]
    norm_num

end VirtualEye
